import Mathlib

/-!
Verification of the EmailJS service wrapper and the contact-form validation
utilities of the PortfolioNepal portfolio repository.

The JavaScript sources embedded here:
  * `src/utils/formValidation.js` — `sanitizeInput`, `validateName`,
    `validateEmailFormat`, `validateMessageLength`, `validateContactForm`,
    `VALIDATION_RULES`;
  * `src/utils/emailJSValidator.js` — `validateFormData`;
  * `src/utils/debugUtils.js` — `ERROR_CATEGORIES`, `errorTracker` and its
    `categorizeError`;
  * `src/services/emailJSService.js` — `SERVICE_CONFIG`, `_sendWithRetry`,
    `_calculateRetryDelay`, `_categorizeAndEnhanceError`,
    `_getNetworkErrorCode`, `_getConfigurationErrorCode`,
    `_getUserFriendlyErrorMessage` and `sendEmail`.

JavaScript strings are modeled as `List Char` (UTF-16 code units restricted
to the code points actually manipulated).  Regular-expression tests and
replacements from the source are translated, regex by regex, into
executable scanners; scanners whose recursion is not structural take an
explicit fuel argument initialized to the input length, which each step of
the scan strictly decreases, so the fuel never runs out on the initial call.
-/

/-- A JavaScript string. -/
abbrev Str := List Char

/-- Whitespace, as matched by the JavaScript regex class `\s` restricted to
the code points occurring in this code base (tab, line feed, vertical tab,
form feed, carriage return, space). -/
def isWsCh (c : Char) : Bool :=
  c.toNat = 9 || c.toNat = 10 || c.toNat = 11 || c.toNat = 12 ||
  c.toNat = 13 || c.toNat = 32

/-- ASCII letter, the regex class `[a-zA-Z]`. -/
def isLetterCh (c : Char) : Bool :=
  (65 ≤ c.toNat && c.toNat ≤ 90) || (97 ≤ c.toNat && c.toNat ≤ 122)

/-- ASCII digit, the regex class `[0-9]`. -/
def isDigitCh (c : Char) : Bool :=
  48 ≤ c.toNat && c.toNat ≤ 57

/-- The regex class `[a-zA-Z0-9]`. -/
def isAlnumCh (c : Char) : Bool :=
  isLetterCh c || isDigitCh c

/-- The regex word class `\w`, namely `[A-Za-z0-9_]`. -/
def isWordCh (c : Char) : Bool :=
  isAlnumCh c || c.toNat = 95

/-- Source: `String.prototype.trim`: drop whitespace from both ends. -/
def jsTrim (l : Str) : Str :=
  ((l.dropWhile isWsCh).reverse.dropWhile isWsCh).reverse

/-- Scanner for the replacement `replace(/\s+/g, ' ')` of `sanitizeInput`:
every maximal run of whitespace becomes a single space.  The Boolean state
records whether the previously scanned character was whitespace (i.e.
whether the scanner is inside a run that has already emitted its space). -/
def normWsAux : Bool → Str → Str
  | _, [] => []
  | prevWs, c :: t =>
    if isWsCh c then
      if prevWs then normWsAux true t else ' ' :: normWsAux true t
    else c :: normWsAux false t

/-- Source: `replace(/\s+/g, ' ')`. -/
def normWs (l : Str) : Str := normWsAux false l

theorem normWsAux_nil (b : Bool) : normWsAux b [] = [] := rfl

theorem normWs_ne_nil {l : Str} (h : l ≠ []) : normWs l ≠ [] := by
  cases l with
  | nil => exact absurd rfl h
  | cons c t =>
    unfold normWs normWsAux
    by_cases hc : isWsCh c <;> simp [hc]

theorem mem_normWsAux {c : Char} :
    ∀ (l : Str) (b : Bool), c ∈ normWsAux b l → c ∈ l ∨ c = ' ' := by
  intro l
  induction l with
  | nil => intro b h; simp [normWsAux] at h
  | cons a t ih =>
    intro b h
    unfold normWsAux at h
    by_cases ha : isWsCh a
    · simp only [ha, if_true] at h
      cases b with
      | true =>
        rcases ih true h with h' | h'
        · exact Or.inl (List.mem_cons_of_mem _ h')
        · exact Or.inr h'
      | false =>
        simp only [Bool.false_eq_true, if_false] at h
        rcases List.mem_cons.mp h with h' | h'
        · exact Or.inr h'
        · rcases ih true h' with h'' | h''
          · exact Or.inl (List.mem_cons_of_mem _ h'')
          · exact Or.inr h''
    · simp only [ha, Bool.false_eq_true, if_false] at h
      rcases List.mem_cons.mp h with h' | h'
      · exact Or.inl (h' ▸ List.mem_cons_self a t)
      · rcases ih false h' with h'' | h''
        · exact Or.inl (List.mem_cons_of_mem _ h'')
        · exact Or.inr h''

/-- After the scanner has just emitted a space (state `true`), the next
emitted character is never whitespace. -/
theorem normWsAux_true_head :
    ∀ l : Str, ¬ isWsCh ((normWsAux true l).headD 'a') = true := by
  intro l
  induction l with
  | nil => simp [normWsAux, isWsCh]
  | cons c t ih =>
    unfold normWsAux
    by_cases hc : isWsCh c
    · simpa [hc] using ih
    · simp [hc]

/-- No two consecutive characters are both whitespace. -/
def noDoubleWs : Str → Bool
  | [] => true
  | [_] => true
  | a :: b :: t => !(isWsCh a && isWsCh b) && noDoubleWs (b :: t)

theorem noDoubleWs_cons (a : Char) (l : Str) :
    noDoubleWs (a :: l) =
      (!(isWsCh a && isWsCh (l.headD 'a')) && noDoubleWs l) := by
  cases l with
  | nil => simp [noDoubleWs, isWsCh]
  | cons b t => rfl

theorem noDoubleWs_normWsAux : ∀ (l : Str) (b : Bool),
    noDoubleWs (normWsAux b l) = true := by
  intro l
  induction l with
  | nil => intro b; simp [normWsAux, noDoubleWs]
  | cons c t ih =>
    intro b
    unfold normWsAux
    by_cases hc : isWsCh c
    · cases b with
      | true => simpa [hc] using ih true
      | false =>
        simp only [hc, if_true, Bool.false_eq_true, if_false]
        rw [noDoubleWs_cons]
        have hhead := normWsAux_true_head t
        simp only [Bool.and_eq_true, Bool.not_eq_true', Bool.and_eq_false_iff]
        refine ⟨?_, ih true⟩
        right
        simpa using hhead
    · simp only [hc, Bool.false_eq_true, if_false]
      rw [noDoubleWs_cons]
      simp only [Bool.and_eq_true, Bool.not_eq_true', Bool.and_eq_false_iff]
      exact ⟨Or.inl (by simpa using hc), ih false⟩

theorem getLastD_irrel {l : Str} (h : l ≠ []) (d d' : Char) :
    l.getLastD d = l.getLastD d' := by
  rw [List.getLastD_eq_getLast?, List.getLastD_eq_getLast?,
    List.getLast?_eq_getLast l h]
  simp

/-- If a nonempty list ends in a non-whitespace character, so does its
whitespace normalization, which in particular is nonempty. -/
theorem normWsAux_getLast : ∀ (l : Str) (b : Bool), l ≠ [] →
    ¬ isWsCh (l.getLastD 'a') = true →
    normWsAux b l ≠ [] ∧ ¬ isWsCh ((normWsAux b l).getLastD 'a') = true := by
  intro l
  induction l with
  | nil => intro b h; exact absurd rfl h
  | cons c t ih =>
    intro b _ hlast
    unfold normWsAux
    by_cases hc : isWsCh c
    · -- the head is whitespace, so the non-whitespace last character is in t
      have ht : t ≠ [] := by
        intro he
        subst he
        simp [List.getLastD] at hlast
        exact absurd hc (by simp [hlast])
      have hlt : ¬ isWsCh (t.getLastD 'a') = true := by
        rw [List.getLastD_cons] at hlast
        rwa [getLastD_irrel ht 'a' c]
      have := ih true ht hlt
      cases b with
      | true => simpa [hc] using this
      | false =>
        simp only [hc, if_true, Bool.false_eq_true, if_false]
        refine ⟨by simp, ?_⟩
        rw [List.getLastD_cons, getLastD_irrel this.1 ' ' 'a']
        exact this.2
    · simp only [hc, Bool.false_eq_true, if_false]
      refine ⟨by simp, ?_⟩
      by_cases ht : t = []
      · subst ht
        simpa [normWsAux, List.getLastD] using hc
      · have hlt : ¬ isWsCh (t.getLastD 'a') = true := by
          rw [List.getLastD_cons] at hlast
          rwa [getLastD_irrel ht 'a' c]
        have := ih false ht hlt
        rw [List.getLastD_cons, getLastD_irrel this.1 c 'a']
        exact this.2

theorem getLastD_append_ne_nil {l : Str} (h : l ≠ []) :
    ∀ (pre : Str) (d : Char), (pre ++ l).getLastD d = l.getLastD d := by
  intro pre
  induction pre with
  | nil => intro d; rfl
  | cons a t ih =>
    intro d
    rw [List.cons_append, List.getLastD_cons, ih a]
    exact getLastD_irrel h a d

theorem dropWhile_headD_not (p : Char → Bool) (l : Str) {d : Char}
    (hd : p d = false) : p ((l.dropWhile p).headD d) = false := by
  have h := List.head?_dropWhile_not p l
  rw [List.headD_eq_head?]
  cases hh : (l.dropWhile p).head? with
  | none => simpa using hd
  | some x => rw [hh] at h; simpa using h

theorem reverse_getLastD (l : Str) (d : Char) :
    l.reverse.getLastD d = l.headD d := by
  rw [List.getLastD_eq_getLast?, List.getLast?_reverse, List.headD_eq_head?]

theorem reverse_headD (l : Str) (d : Char) :
    l.reverse.headD d = l.getLastD d := by
  rw [List.headD_eq_head?, List.head?_reverse, List.getLastD_eq_getLast?]

theorem isWsCh_default : isWsCh 'a' = false := by decide

/-- The last character of a trimmed string is not whitespace. -/
theorem jsTrim_getLast_not_ws (l : Str) :
    isWsCh ((jsTrim l).getLastD 'a') = false := by
  unfold jsTrim
  rw [reverse_getLastD]
  exact dropWhile_headD_not _ _ isWsCh_default

/-- The first character of a trimmed string is not whitespace. -/
theorem jsTrim_headD_not_ws (l : Str) :
    isWsCh ((jsTrim l).headD 'a') = false := by
  unfold jsTrim
  rw [reverse_headD]
  by_cases hne : (l.dropWhile isWsCh).reverse.dropWhile isWsCh = []
  · rw [hne]; exact isWsCh_default
  · obtain ⟨pre, hpre⟩ := List.dropWhile_suffix (l := (l.dropWhile isWsCh).reverse) (p := isWsCh)
    rw [← getLastD_append_ne_nil hne pre 'a', hpre, reverse_getLastD]
    exact dropWhile_headD_not _ _ isWsCh_default

/-- A string whose two ends are not whitespace is its own trim. -/
theorem jsTrim_eq_self {l : Str} (h1 : isWsCh (l.headD 'a') = false)
    (h2 : isWsCh (l.getLastD 'a') = false) : jsTrim l = l := by
  have e1 : l.dropWhile isWsCh = l := by
    cases l with
    | nil => rfl
    | cons c t =>
      exact List.dropWhile_cons_of_neg (by simpa using h1)
  have e2 : l.reverse.dropWhile isWsCh = l.reverse := by
    cases hr : l.reverse with
    | nil => rfl
    | cons c t =>
      have hc : isWsCh c = false := by
        have := reverse_headD l 'a'
        rw [hr] at this
        simp only [List.headD_cons] at this
        rw [this]
        exact h2
      rw [← hr]
      rw [hr]
      exact List.dropWhile_cons_of_neg (by simpa using hc)
  unfold jsTrim
  rw [e1, e2, List.reverse_reverse]

theorem mem_jsTrim {c : Char} {l : Str} (h : c ∈ jsTrim l) : c ∈ l := by
  unfold jsTrim at h
  rw [List.mem_reverse] at h
  have h2 := (List.dropWhile_suffix (l := (l.dropWhile isWsCh).reverse)
    (p := isWsCh)).subset h
  rw [List.mem_reverse] at h2
  exact (List.dropWhile_suffix (p := isWsCh)).subset h2

/-- ASCII lower-casing, `String.prototype.toLowerCase` on the characters
this code base manipulates. -/
def toLowerCh (c : Char) : Char :=
  if 65 ≤ c.toNat ∧ c.toNat ≤ 90 then Char.ofNat (c.toNat + 32) else c

def toLowerStr (l : Str) : Str := l.map toLowerCh

/-- Case-insensitive prefix test: does the (already lower-case) pattern
begin the string?  Implements matching a literal with the regex `i` flag. -/
def ciPrefixB : Str → Str → Bool
  | [], _ => true
  | _ :: _, [] => false
  | p :: ps, c :: cs => (toLowerCh c = p) && ciPrefixB ps cs

/-- Consume characters up to and including the first `>` — the regex piece
`[^>]*>`: since `[^>]*` cannot cross a `>`, a match must end at the first
`>`.  Returns the rest of the string, or `none` when no `>` remains. -/
def afterGt : Str → Option Str
  | [] => none
  | c :: t => if c = '>' then some t else afterGt t

theorem afterGt_suffix : ∀ {l r : Str}, afterGt l = some r → r <:+ l := by
  intro l
  induction l with
  | nil => intro r h; simp [afterGt] at h
  | cons c t ih =>
    intro r h
    unfold afterGt at h
    by_cases hc : c = '>'
    · simp only [hc, if_true] at h
      cases h
      exact List.suffix_cons _ _
    · simp only [hc, if_false] at h
      exact (ih h).trans (List.suffix_cons c t)

/-- Find the earliest occurrence of the literal `</script>` (the regex
piece `.*?<\/script>`, case-insensitive): the lazy `.*?` extends character
by character, cannot cross a line terminator, and stops at the first place
where `</script>` matches.  Returns the rest after the closing tag. -/
def findCloseScript : Str → Option Str
  | [] => none
  | c :: t =>
    if ciPrefixB ("</script>".toList) (c :: t) then some ((c :: t).drop 9)
    else if c.toNat = 10 || c.toNat = 13 then none
    else findCloseScript t

theorem findCloseScript_suffix : ∀ {l r : Str},
    findCloseScript l = some r → r <:+ l := by
  intro l
  induction l with
  | nil => intro r h; simp [findCloseScript] at h
  | cons c t ih =>
    intro r h
    unfold findCloseScript at h
    by_cases h1 : ciPrefixB ("</script>".toList) (c :: t)
    · simp only [h1, if_true] at h
      cases h
      exact List.drop_suffix 9 (c :: t)
    · simp only [h1, Bool.false_eq_true, if_false] at h
      by_cases h2 : (c.toNat = 10 || c.toNat = 13) = true
      · simp [h2] at h
      · simp only [h2, Bool.false_eq_true, if_false] at h
        exact (ih h).trans (List.suffix_cons c t)

/-- Scanner for `replace(/<script[^>]*>.*?<\/script>/gi, '')`: at each
position, try to match an opening `<script` tag (case-insensitively), its
`[^>]*>` remainder, and the nearest closing `</script>`; on a match the
whole range is dropped and scanning resumes after it, otherwise the
character is kept.  The fuel starts at the input length; every recursive
call strictly shrinks the remaining input, so the fuel is never exhausted
on the initial call. -/
def removeScriptF : Nat → Str → Str
  | 0, l => l
  | _ + 1, [] => []
  | fuel + 1, c :: t =>
    if ciPrefixB ("<script".toList) (c :: t) then
      match afterGt ((c :: t).drop 7) with
      | some r1 =>
        match findCloseScript r1 with
        | some r2 => removeScriptF fuel r2
        | none => c :: removeScriptF fuel t
      | none => c :: removeScriptF fuel t
    else c :: removeScriptF fuel t

def removeScript (l : Str) : Str := removeScriptF l.length l

/-- Scanner for `replace(/<[^>]*>/g, '')`: a `<` with a later `>` removes
everything up to and including that first `>`. -/
def removeTagsF : Nat → Str → Str
  | 0, l => l
  | _ + 1, [] => []
  | fuel + 1, c :: t =>
    if c = '<' then
      match afterGt t with
      | some r => removeTagsF fuel r
      | none => c :: removeTagsF fuel t
    else c :: removeTagsF fuel t

def removeTags (l : Str) : Str := removeTagsF l.length l

/-- Source: `replace(/[<>]/g, '')`. -/
def removeAngles (l : Str) : Str :=
  l.filter (fun c => !(c = '<' || c = '>'))

/-- Scanner for `replace(/javascript:/gi, '')`. -/
def removeJsProtoF : Nat → Str → Str
  | 0, l => l
  | _ + 1, [] => []
  | fuel + 1, c :: t =>
    if ciPrefixB ("javascript:".toList) (c :: t) then
      removeJsProtoF fuel ((c :: t).drop 11)
    else c :: removeJsProtoF fuel t

def removeJsProto (l : Str) : Str := removeJsProtoF l.length l

/-- The regex piece `\w+=` after a literal `on`: the greedy `\w+` with
backtracking succeeds exactly when the maximal word-character run is
nonempty and is followed directly by `=` (an earlier stop would face a
word character, which is never `=`).  Returns the rest after the `=`. -/
def eatWordEq (l : Str) : Option Str :=
  match l.dropWhile isWordCh with
  | c :: r =>
    if (l.takeWhile isWordCh).isEmpty then none
    else if c = '=' then some r else none
  | [] => none

theorem eatWordEq_suffix {l r : Str} (h : eatWordEq l = some r) : r <:+ l := by
  unfold eatWordEq at h
  cases hd : l.dropWhile isWordCh with
  | nil => rw [hd] at h; simp at h
  | cons c t =>
    rw [hd] at h
    by_cases h1 : (l.takeWhile isWordCh).isEmpty
    · simp [h1] at h
    · simp only [h1, Bool.false_eq_true, if_false] at h
      by_cases h2 : c = '='
      · simp only [h2, if_true, Option.some.injEq] at h
        subst h
        exact ((List.suffix_cons _ _).trans (hd ▸ List.dropWhile_suffix isWordCh))
      · simp [h2] at h


/-- Scanner for `replace(/on\w+=/gi, '')`: a match needs the two literal
characters `on` (case-insensitive) followed by `\w+=`. -/
def removeOnHandlersF : Nat → Str → Str
  | 0, l => l
  | _ + 1, [] => []
  | _ + 1, [c] => [c]
  | fuel + 1, c :: c2 :: t2 =>
    if toLowerCh c = 'o' && toLowerCh c2 = 'n' then
      match eatWordEq t2 with
      | some r => removeOnHandlersF fuel r
      | none => c :: removeOnHandlersF fuel (c2 :: t2)
    else c :: removeOnHandlersF fuel (c2 :: t2)

def removeOnHandlers (l : Str) : Str := removeOnHandlersF l.length l

theorem mem_removeScriptF : ∀ (fuel : Nat) (l : Str) (c : Char),
    c ∈ removeScriptF fuel l → c ∈ l := by
  intro fuel
  induction fuel with
  | zero => intro l c h; exact h
  | succ n ih =>
    intro l c h
    cases l with
    | nil => simp [removeScriptF] at h
    | cons a t =>
      unfold removeScriptF at h
      by_cases h1 : ciPrefixB ("<script".toList) (a :: t)
      · rw [if_pos h1] at h
        cases hg : afterGt ((a :: t).drop 7) with
        | none =>
          simp only [hg] at h
          rcases List.mem_cons.mp h with h' | h'
          · exact h' ▸ List.mem_cons_self a t
          · exact List.mem_cons_of_mem _ (ih t c h')
        | some r1 =>
          cases hf : findCloseScript r1 with
          | none =>
            simp only [hg, hf] at h
            rcases List.mem_cons.mp h with h' | h'
            · exact h' ▸ List.mem_cons_self a t
            · exact List.mem_cons_of_mem _ (ih t c h')
          | some r2 =>
            simp only [hg, hf] at h
            have s1 : r2 <:+ r1 := findCloseScript_suffix hf
            have s2 : r1 <:+ (a :: t).drop 7 := afterGt_suffix hg
            exact (List.drop_suffix 7 (a :: t)).subset
              (s2.subset (s1.subset (ih r2 c h)))
      · rw [if_neg h1] at h
        rcases List.mem_cons.mp h with h' | h'
        · exact h' ▸ List.mem_cons_self a t
        · exact List.mem_cons_of_mem _ (ih t c h')

theorem mem_removeTagsF : ∀ (fuel : Nat) (l : Str) (c : Char),
    c ∈ removeTagsF fuel l → c ∈ l := by
  intro fuel
  induction fuel with
  | zero => intro l c h; exact h
  | succ n ih =>
    intro l c h
    cases l with
    | nil => simp [removeTagsF] at h
    | cons a t =>
      unfold removeTagsF at h
      by_cases h1 : a = '<'
      · rw [if_pos h1] at h
        cases hg : afterGt t with
        | none =>
          simp only [hg] at h
          rcases List.mem_cons.mp h with h' | h'
          · exact h' ▸ List.mem_cons_self a t
          · exact List.mem_cons_of_mem _ (ih t c h')
        | some r =>
          simp only [hg] at h
          exact List.mem_cons_of_mem _ ((afterGt_suffix hg).subset (ih r c h))
      · rw [if_neg h1] at h
        rcases List.mem_cons.mp h with h' | h'
        · exact h' ▸ List.mem_cons_self a t
        · exact List.mem_cons_of_mem _ (ih t c h')

theorem mem_removeJsProtoF : ∀ (fuel : Nat) (l : Str) (c : Char),
    c ∈ removeJsProtoF fuel l → c ∈ l := by
  intro fuel
  induction fuel with
  | zero => intro l c h; exact h
  | succ n ih =>
    intro l c h
    cases l with
    | nil => simp [removeJsProtoF] at h
    | cons a t =>
      unfold removeJsProtoF at h
      by_cases h1 : ciPrefixB ("javascript:".toList) (a :: t)
      · rw [if_pos h1] at h
        exact (List.drop_suffix 11 (a :: t)).subset (ih _ c h)
      · rw [if_neg h1] at h
        rcases List.mem_cons.mp h with h' | h'
        · exact h' ▸ List.mem_cons_self a t
        · exact List.mem_cons_of_mem _ (ih t c h')

theorem mem_removeOnHandlersF : ∀ (fuel : Nat) (l : Str) (c : Char),
    c ∈ removeOnHandlersF fuel l → c ∈ l := by
  intro fuel
  induction fuel with
  | zero => intro l c h; exact h
  | succ n ih =>
    intro l c h
    match l with
    | [] => simp [removeOnHandlersF] at h
    | [a] => simpa [removeOnHandlersF] using h
    | a :: c2 :: t2 =>
      unfold removeOnHandlersF at h
      by_cases h1 : (toLowerCh a = 'o' && toLowerCh c2 = 'n') = true
      · rw [if_pos h1] at h
        cases he : eatWordEq t2 with
        | none =>
          simp only [he] at h
          rcases List.mem_cons.mp h with h' | h'
          · exact h' ▸ List.mem_cons_self a _
          · exact List.mem_cons_of_mem _ (ih _ c h')
        | some r =>
          simp only [he] at h
          have : c ∈ t2 := (eatWordEq_suffix he).subset (ih r c h)
          exact List.mem_cons_of_mem _ (List.mem_cons_of_mem _ this)
      · rw [if_neg h1] at h
        rcases List.mem_cons.mp h with h' | h'
        · exact h' ▸ List.mem_cons_self a _
        · exact List.mem_cons_of_mem _ (ih _ c h')

/-- The full removal-and-normalization pipeline of `sanitizeInput`
(`formValidation.js`): strip script blocks, HTML tags, stray angle
brackets, `javascript:` protocols and inline event handlers, then trim and
collapse whitespace runs to single spaces. -/
def sanitizeCore (s : Str) : Str :=
  normWs (jsTrim (removeOnHandlers (removeJsProto (removeAngles
    (removeTags (removeScript s))))))

/-- Source: `sanitizeInput` from `formValidation.js`.  A `none` argument models a
missing or non-string input (`!input || typeof input !== 'string'`); the
empty string is likewise falsy and yields the empty string. -/
def sanitizeInput : Option Str → Str
  | none => []
  | some s => if s.isEmpty then [] else sanitizeCore s

theorem sanitizeCore_no_angle {c : Char} {s : Str} (h : c ∈ sanitizeCore s) :
    ¬(c = '<' ∨ c = '>') := by
  unfold sanitizeCore normWs at h
  rcases mem_normWsAux _ false h with h1 | h1
  · have h2 := mem_jsTrim h1
    have h3 := mem_removeOnHandlersF _ _ _ h2
    have h4 := mem_removeJsProtoF _ _ _ h3
    have h5 := List.mem_filter.mp h4
    intro hc
    rcases hc with hc | hc <;> simp [hc] at h5
  · intro hc
    rcases hc with hc | hc <;> rw [hc] at h1 <;> cases h1

theorem sanitizeCore_headD (s : Str) :
    isWsCh ((sanitizeCore s).headD 'a') = false := by
  unfold sanitizeCore normWs
  cases ht : jsTrim (removeOnHandlers (removeJsProto (removeAngles
      (removeTags (removeScript s))))) with
  | nil => exact isWsCh_default
  | cons c t =>
    have hc : isWsCh c = false := by
      have := jsTrim_headD_not_ws (removeOnHandlers (removeJsProto
        (removeAngles (removeTags (removeScript s)))))
      rw [ht] at this
      simpa using this
    unfold normWsAux
    rw [if_neg (by simp [hc])]
    simpa using hc

theorem sanitizeCore_getLastD (s : Str) :
    isWsCh ((sanitizeCore s).getLastD 'a') = false := by
  unfold sanitizeCore normWs
  cases ht : jsTrim (removeOnHandlers (removeJsProto (removeAngles
      (removeTags (removeScript s))))) with
  | nil => exact isWsCh_default
  | cons c t =>
    have hlast : ¬ isWsCh ((c :: t).getLastD 'a') = true := by
      have := jsTrim_getLast_not_ws (removeOnHandlers (removeJsProto
        (removeAngles (removeTags (removeScript s)))))
      rw [ht] at this
      rw [this]
      exact Bool.false_ne_true
    have := normWsAux_getLast (c :: t) false (by simp) hlast
    simpa using this.2

theorem sanitizeCore_noDoubleWs (s : Str) :
    noDoubleWs (sanitizeCore s) = true :=
  noDoubleWs_normWsAux _ false

/-- Sanitized output is already trimmed, so trimming it again is the
identity; `validateContactForm` relies on this implicitly. -/
theorem jsTrim_sanitizeInput (x : Option Str) :
    jsTrim (sanitizeInput x) = sanitizeInput x := by
  cases x with
  | none => rfl
  | some s =>
    by_cases he : s.isEmpty
    · have e : sanitizeInput (some s) = [] := by simp [sanitizeInput, he]
      rw [e]
      rfl
    · have e : sanitizeInput (some s) = sanitizeCore s := by
        simp [sanitizeInput, he]
      rw [e]
      exact jsTrim_eq_self (sanitizeCore_headD s) (sanitizeCore_getLastD s)

/-! ### The validation regexes of `VALIDATION_RULES` (`formValidation.js`)

`NAME.PATTERN` is the anchored regex admitting one or more letters,
whitespace characters, hyphens, apostrophes or periods.  `EMAIL.PATTERN`
is the anchored RFC-5322-style regex

  `[A]+(\.[A]+)*@[B]([C]max61[B])?(\.[B]([C]max61[B])?)*\.[a-zA-Z]`, 2+,

with `A` the atom-character class, `B` alphanumerics and `C` alphanumerics
plus hyphen.  An anchored backtracking `test` accepts exactly the strings
of the regex language, so each matcher below decides membership of that
language: the string splits at `@` (the classes exclude `@`, so exactly
one must occur) and the two halves split at `.` (the classes exclude `.`)
into atoms, respectively labels and a final top-level domain. -/

/-- Character class of the name pattern: `[a-zA-Z\s\-'\.]` (letter,
whitespace, hyphen, apostrophe, period). -/
def isNameCh (c : Char) : Bool :=
  isLetterCh c || isWsCh c || c.toNat = 45 || c.toNat = 39 || c.toNat = 46

/-- The anchored test of `NAME.PATTERN`: one or more name characters. -/
def namePatternTest (t : Str) : Bool :=
  !t.isEmpty && t.all isNameCh

/-- Atom characters of the email local part:
letters, digits, and the literals of the bracket class
(codes 33 35 36 37 38 39 42 43 47 61 63 94 95 96 123 124 125 126 45). -/
def isLocalCh (c : Char) : Bool :=
  isAlnumCh c || c.toNat = 33 || c.toNat = 35 || c.toNat = 36 ||
  c.toNat = 37 || c.toNat = 38 || c.toNat = 39 || c.toNat = 42 ||
  c.toNat = 43 || c.toNat = 47 || c.toNat = 61 || c.toNat = 63 ||
  c.toNat = 94 || c.toNat = 95 || c.toNat = 96 || c.toNat = 123 ||
  c.toNat = 124 || c.toNat = 125 || c.toNat = 126 || c.toNat = 45

/-- Domain label characters: alphanumeric or hyphen. -/
def isLabelCh (c : Char) : Bool :=
  isAlnumCh c || c.toNat = 45

/-- Split a string at every occurrence of a separator character
(`String.prototype.split` on a single character; the result is always
nonempty and the separators are not part of the pieces). -/
def splitOnChar (sep : Char) : Str → List Str
  | [] => [[]]
  | c :: t =>
    let r := splitOnChar sep t
    if c = sep then [] :: r
    else
      match r with
      | [] => [[c]]
      | h :: t2 => (c :: h) :: t2

/-- Rejoin pieces with a separator; inverse of `splitOnChar`. -/
def joinSep (sep : Char) : List Str → Str
  | [] => []
  | [p] => p
  | p :: ps => p ++ sep :: joinSep sep ps

/-- Language of the regex local part `[A]+(\.[A]+)*`: every dot-separated
piece is a nonempty run of atom characters. -/
def localOk (l : Str) : Bool :=
  (splitOnChar '.' l).all (fun p => !p.isEmpty && p.all isLocalCh)

/-- Language of the regex label `[B]([C]max61[B])?`: nonempty, at most 63
characters, alphanumeric at both ends, alphanumeric-or-hyphen inside. -/
def labelOk (p : Str) : Bool :=
  !p.isEmpty && p.length ≤ 63 && isAlnumCh (p.headD 'a') &&
  isAlnumCh (p.getLastD 'a') && p.all isLabelCh

/-- Language of the final `[a-zA-Z]` piece repeated at least twice. -/
def tldOk (p : Str) : Bool :=
  2 ≤ p.length && p.all isLetterCh

/-- Language of the regex domain: one or more labels, then a top-level
domain, all dot-separated. -/
def domainOk (d : Str) : Bool :=
  let parts := splitOnChar '.' d
  2 ≤ parts.length && parts.dropLast.all labelOk && tldOk (parts.getLastD [])

/-- The anchored test of `VALIDATION_RULES.EMAIL.PATTERN`. -/
def rfcEmailTest (s : Str) : Bool :=
  match splitOnChar '@' s with
  | [l, d] => localOk l && domainOk d
  | _ => false

/-- Character class `[^\s@]` of the service-side email regex
(64 is the code point of `@`). -/
def isSimpleCh (c : Char) : Bool :=
  !(isWsCh c || c.toNat = 64)

/-- Is there a `.` that is neither the first nor the last character? -/
def dotWithSuffix : Str → Bool
  | [] => false
  | [_] => false
  | c :: t => (c = '.') || dotWithSuffix t

def hasInnerDot : Str → Bool
  | [] => false
  | _ :: t => dotWithSuffix t

/-- The anchored test of the service-side regex `[^\s@]+@[^\s@]+\.[^\s@]+`
(`validateFormData` in `emailJSValidator.js`): exactly one `@`, a nonempty
local half, no whitespace, and a dot strictly inside the domain half. -/
def simpleEmailTest (s : Str) : Bool :=
  match splitOnChar '@' s with
  | [l, d] => !l.isEmpty && l.all isSimpleCh && d.all isSimpleCh && hasInnerDot d
  | _ => false

/-! ### The field validators of `formValidation.js` -/

structure FieldResult where
  isValid : Bool
  error : Option Str
  deriving DecidableEq

/-- Source: `validateName`: required, trimmed length within 2..50, name pattern. -/
def validateName (name : Str) : FieldResult :=
  if name.isEmpty then ⟨false, some ("Name is required".toList)⟩
  else
    let t := jsTrim name
    if t.isEmpty then ⟨false, some ("Name is required".toList)⟩
    else if t.length < 2 then
      ⟨false, some ("Name must be at least 2 characters".toList)⟩
    else if 50 < t.length then
      ⟨false, some ("Name must be less than 50 characters".toList)⟩
    else if !namePatternTest t then
      ⟨false, some (("Name can only contain letters, spaces, hyphens, " ++
        "apostrophes, and periods").toList)⟩
    else ⟨true, none⟩

/-- Source: `validateEmailFormat`: required, then the RFC pattern on the trim. -/
def validateEmailFormat (email : Str) : FieldResult :=
  if email.isEmpty then ⟨false, some ("Email address is required".toList)⟩
  else
    let t := jsTrim email
    if t.isEmpty then ⟨false, some ("Email address is required".toList)⟩
    else if rfcEmailTest t then ⟨true, none⟩
    else ⟨false, some ("Please enter a valid email address".toList)⟩

/-- Source: `validateMessageLength`: required, trimmed length within 10..1000. -/
def validateMessageLength (message : Str) : FieldResult :=
  if message.isEmpty then ⟨false, some ("Message is required".toList)⟩
  else
    let t := jsTrim message
    if t.isEmpty then ⟨false, some ("Message is required".toList)⟩
    else if t.length < 10 then
      ⟨false, some ("Message must be at least 10 characters".toList)⟩
    else if 1000 < t.length then
      ⟨false, some ("Message must be less than 1000 characters".toList)⟩
    else ⟨true, none⟩

/-- The form-data object handed to the validators and to `sendEmail`; a
`none` field models a missing (or non-string) property. -/
structure FormData where
  user_name : Option Str
  user_email : Option Str
  message : Option Str

structure SanitizedData where
  user_name : Str
  user_email : Str
  message : Str
  deriving DecidableEq

structure ContactValidation where
  isValid : Bool
  errors : List Str
  sanitizedData : SanitizedData

/-- Source: `validateContactForm` (`formValidation.js`): sanitize the three fields,
validate each, collect the error messages in field order.  The source
starts from `isValid: true` and flips it on each failed check, which is
the conjunction below. -/
def validateContactForm (fd : FormData) : ContactValidation :=
  let sn := sanitizeInput fd.user_name
  let se := sanitizeInput fd.user_email
  let sm := sanitizeInput fd.message
  let nv := validateName sn
  let ev := validateEmailFormat se
  let mv := validateMessageLength sm
  { isValid := nv.isValid && ev.isValid && mv.isValid
    errors := nv.error.toList ++ ev.error.toList ++ mv.error.toList
    sanitizedData := { user_name := sn, user_email := se, message := sm } }

/-! ### `validateFormData` of `emailJSValidator.js` -/

structure ServiceValidation where
  isValid : Bool
  errors : List Str

/-- Source: `!formData.f || formData.f.trim().length === 0`: a required field is
missing when absent, falsy (empty) or blank after trimming. -/
def fieldMissing : Option Str → Bool
  | none => true
  | some s => s.isEmpty || (jsTrim s).isEmpty

/-- Source: `formData.user_email && !emailRegex.test(formData.user_email)`: the
regex runs on the raw (untrimmed) field, only when it is truthy. -/
def emailFormatBad : Option Str → Bool
  | none => false
  | some s => !s.isEmpty && !simpleEmailTest s

/-- Source: `formData.f && formData.f.length > limit`. -/
def fieldTooLong (limit : Nat) : Option Str → Bool
  | none => false
  | some s => !s.isEmpty && limit < s.length

/-- Source: `formData.f && formData.f.length < limit`. -/
def fieldTooShort (limit : Nat) : Option Str → Bool
  | none => false
  | some s => !s.isEmpty && s.length < limit

/-- Source: `validateFormData`: required fields (truthy and nonblank trim), the
simple email regex on the raw field when present, and raw-length bounds.
Error messages are pushed in source order; `isValid` is flipped by any
failing check. -/
def validateFormData (fd : FormData) : ServiceValidation :=
  let nameMissing := fieldMissing fd.user_name
  let emailMissing := fieldMissing fd.user_email
  let messageMissing := fieldMissing fd.message
  let emailBad := emailFormatBad fd.user_email
  let nameTooLong := fieldTooLong 50 fd.user_name
  let messageTooShort := fieldTooShort 10 fd.message
  let messageTooLong := fieldTooLong 1000 fd.message
  { isValid := !(nameMissing || emailMissing || messageMissing || emailBad ||
      nameTooLong || messageTooShort || messageTooLong)
    errors :=
      (if nameMissing then ["Name is required".toList] else []) ++
      (if emailMissing then ["Email is required".toList] else []) ++
      (if messageMissing then ["Message is required".toList] else []) ++
      (if emailBad then ["Invalid email format".toList] else []) ++
      (if nameTooLong then ["Name must be less than 50 characters".toList]
        else []) ++
      (if messageTooShort then
        ["Message must be at least 10 characters".toList] else []) ++
      (if messageTooLong then
        ["Message must be less than 1000 characters".toList] else []) }

/-- Passing a sanitized-data object where a form-data object is expected
(`emailService.sendEmail(validation.sanitizedData)` in `Contact.jsx`). -/
def toFormData (sd : SanitizedData) : FormData :=
  ⟨some sd.user_name, some sd.user_email, some sd.message⟩

theorem charEq_toNat {c d : Char} : c = d ↔ c.toNat = d.toNat := by
  constructor
  · rintro rfl; rfl
  · intro h; exact Char.eq_of_val_eq (UInt32.ext h)

theorem isLocalCh_isSimpleCh {c : Char} (h : isLocalCh c = true) :
    isSimpleCh c = true := by
  unfold isLocalCh isAlnumCh isLetterCh isDigitCh at h
  simp only [Bool.or_eq_true, Bool.and_eq_true, decide_eq_true_eq] at h
  unfold isSimpleCh isWsCh
  simp only [Bool.not_eq_true', Bool.or_eq_false_iff, decide_eq_false_iff_not]
  omega

theorem isLabelCh_isSimpleCh {c : Char} (h : isLabelCh c = true) :
    isSimpleCh c = true := by
  unfold isLabelCh isAlnumCh isLetterCh isDigitCh at h
  simp only [Bool.or_eq_true, Bool.and_eq_true, decide_eq_true_eq] at h
  unfold isSimpleCh isWsCh
  simp only [Bool.not_eq_true', Bool.or_eq_false_iff, decide_eq_false_iff_not]
  omega

theorem isLetterCh_isSimpleCh {c : Char} (h : isLetterCh c = true) :
    isSimpleCh c = true := by
  unfold isLetterCh at h
  simp only [Bool.or_eq_true, Bool.and_eq_true, decide_eq_true_eq] at h
  unfold isSimpleCh isWsCh
  simp only [Bool.not_eq_true', Bool.or_eq_false_iff, decide_eq_false_iff_not]
  omega

theorem splitOnChar_ne_nil (sep : Char) : ∀ l : Str, splitOnChar sep l ≠ [] := by
  intro l
  induction l with
  | nil => simp [splitOnChar]
  | cons c t ih =>
    unfold splitOnChar
    by_cases hc : c = sep
    · simp [hc]
    · rw [if_neg hc]
      cases hr : splitOnChar sep t with
      | nil => simp
      | cons h t2 => simp

theorem mem_splitOnChar (sep : Char) {ch : Char} :
    ∀ {l : Str}, ch ∈ l → ch = sep ∨ ∃ p ∈ splitOnChar sep l, ch ∈ p := by
  intro l
  induction l with
  | nil => intro h; cases h
  | cons c t ih =>
    intro h
    unfold splitOnChar
    rcases List.mem_cons.mp h with h' | h'
    · subst h'
      by_cases hc : ch = sep
      · exact Or.inl hc
      · rw [if_neg hc]
        cases hr : splitOnChar sep t with
        | nil => exact Or.inr ⟨[ch], by simp, by simp⟩
        | cons p t2 => exact Or.inr ⟨ch :: p, by simp, by simp⟩
    · rcases ih h' with hs | ⟨p, hp, hcp⟩
      · exact Or.inl hs
      · by_cases hc : c = sep
        · rw [if_pos hc]
          exact Or.inr ⟨p, List.mem_cons_of_mem _ hp, hcp⟩
        · rw [if_neg hc]
          cases hr : splitOnChar sep t with
          | nil => exact absurd hr (splitOnChar_ne_nil sep t)
          | cons q t2 =>
            rw [hr] at hp
            rcases List.mem_cons.mp hp with hq | hq
            · exact Or.inr ⟨c :: q, by simp, by simp [hq ▸ hcp]⟩
            · exact Or.inr ⟨p, by simp [hq], hcp⟩

theorem joinSep_splitOnChar (sep : Char) : ∀ l : Str,
    joinSep sep (splitOnChar sep l) = l := by
  intro l
  induction l with
  | nil => rfl
  | cons c t ih =>
    unfold splitOnChar
    by_cases hc : c = sep
    · rw [if_pos hc]
      cases hr : splitOnChar sep t with
      | nil => exact absurd hr (splitOnChar_ne_nil sep t)
      | cons q t2 =>
        rw [hr] at ih
        simp only [joinSep, List.nil_append]
        rw [ih, hc]
    · rw [if_neg hc]
      cases hr : splitOnChar sep t with
      | nil => exact absurd hr (splitOnChar_ne_nil sep t)
      | cons q t2 =>
        rw [hr] at ih
        cases t2 with
        | nil =>
          simp only [joinSep] at ih ⊢
          rw [ih]
        | cons q2 t3 =>
          simp only [joinSep, List.cons_append] at ih ⊢
          rw [ih]

theorem localOk_ne_nil {l : Str} (h : localOk l = true) : l ≠ [] := by
  intro he
  subst he
  exact absurd h (by decide)

theorem all_isSimpleCh_of_localOk {l : Str} (h : localOk l = true) :
    l.all isSimpleCh = true := by
  rw [List.all_eq_true]
  intro c hc
  rcases mem_splitOnChar '.' hc with hs | ⟨p, hp, hcp⟩
  · subst hs; decide
  · unfold localOk at h
    rw [List.all_eq_true] at h
    obtain ⟨h1, h2⟩ := Bool.and_eq_true_iff.mp (h p hp)
    rw [List.all_eq_true] at h2
    exact isLocalCh_isSimpleCh (h2 c hcp)

theorem labelOk_ne_nil {p : Str} (h : labelOk p = true) : p ≠ [] := by
  intro he
  subst he
  exact absurd h (by decide)

theorem all_isSimpleCh_of_domainOk {d : Str} (h : domainOk d = true) :
    d.all isSimpleCh = true := by
  unfold domainOk at h
  simp only [Bool.and_eq_true, decide_eq_true_eq] at h
  obtain ⟨⟨hlen, hlab⟩, htld⟩ := h
  rw [List.all_eq_true]
  intro c hc
  rcases mem_splitOnChar '.' hc with hs | ⟨p, hp, hcp⟩
  · subst hs; decide
  · have hne : splitOnChar '.' d ≠ [] := splitOnChar_ne_nil '.' d
    have hsplit := List.dropLast_append_getLast hne
    rw [← hsplit] at hp
    rcases List.mem_append.mp hp with hp' | hp'
    · have hl := (List.all_eq_true.mp hlab) p hp'
      unfold labelOk at hl
      simp only [Bool.and_eq_true] at hl
      obtain ⟨⟨⟨⟨_, _⟩, _⟩, _⟩, h5⟩ := hl
      rw [List.all_eq_true] at h5
      exact isLabelCh_isSimpleCh (h5 c hcp)
    · have hpl : p = (splitOnChar '.' d).getLast hne := by simpa using hp'
      have hgd : (splitOnChar '.' d).getLastD [] =
          (splitOnChar '.' d).getLast hne := by
        rw [List.getLastD_eq_getLast?, List.getLast?_eq_getLast _ hne]
        rfl
      rw [hgd, ← hpl] at htld
      unfold tldOk at htld
      obtain ⟨_, h2⟩ := Bool.and_eq_true_iff.mp htld
      rw [List.all_eq_true] at h2
      exact isLetterCh_isSimpleCh (h2 c hcp)

theorem dotWithSuffix_append {z : Str} (hz : z ≠ []) :
    ∀ y : Str, dotWithSuffix (y ++ '.' :: z) = true := by
  intro y
  induction y with
  | nil =>
    cases z with
    | nil => exact absurd rfl hz
    | cons q qs => simp [dotWithSuffix]
  | cons a y' ih =>
    cases hx : y' ++ '.' :: z with
    | nil => simp at hx
    | cons b bs =>
      rw [List.cons_append, hx]
      have he : dotWithSuffix (a :: b :: bs) =
          ((a = '.') || dotWithSuffix (b :: bs)) := rfl
      rw [he, ← hx, ih]
      simp

theorem hasInnerDot_append {y z : Str} (hy : y ≠ []) (hz : z ≠ []) :
    hasInnerDot (y ++ '.' :: z) = true := by
  cases y with
  | nil => exact absurd rfl hy
  | cons a y' =>
    rw [List.cons_append]
    show dotWithSuffix (y' ++ '.' :: z) = true
    exact dotWithSuffix_append hz y'

theorem hasInnerDot_of_domainOk {d : Str} (h : domainOk d = true) :
    hasInnerDot d = true := by
  unfold domainOk at h
  simp only [Bool.and_eq_true, decide_eq_true_eq] at h
  obtain ⟨⟨hlen, hlab⟩, htld⟩ := h
  cases hp : splitOnChar '.' d with
  | nil => exact absurd hp (splitOnChar_ne_nil '.' d)
  | cons p1 rest =>
    cases rest with
    | nil => rw [hp] at hlen; simp at hlen
    | cons p2 rest2 =>
      have hj := joinSep_splitOnChar '.' d
      rw [hp] at hj
      have hd : d = p1 ++ '.' :: joinSep '.' (p2 :: rest2) := by
        rw [← hj]
        rfl
      rw [hp] at hlab
      have hp1 : labelOk p1 = true := by
        refine (List.all_eq_true.mp hlab) p1 ?_
        simp [List.dropLast]
      have hy : p1 ≠ [] := labelOk_ne_nil hp1
      have hz : joinSep '.' (p2 :: rest2) ≠ [] := by
        cases rest2 with
        | nil =>
          rw [hp] at htld
          have hgd : ([p1, p2] : List Str).getLastD [] = p2 := by
            rw [List.getLastD_cons, List.getLastD_cons]
            rfl
          rw [hgd] at htld
          unfold tldOk at htld
          obtain ⟨h2, _⟩ := Bool.and_eq_true_iff.mp htld
          show p2 ≠ []
          intro he
          rw [he] at h2
          simp at h2
        | cons q qs =>
          show p2 ++ '.' :: joinSep '.' (q :: qs) ≠ []
          simp
      rw [hd]
      exact hasInnerDot_append hy hz

/-- The strict email pattern of the contact form implies the loose email
pattern of the service-side validator. -/
theorem simpleEmailTest_of_rfc {s : Str} (h : rfcEmailTest s = true) :
    simpleEmailTest s = true := by
  unfold rfcEmailTest at h
  unfold simpleEmailTest
  cases hs : splitOnChar '@' s with
  | nil => rw [hs] at h; simp at h
  | cons l rest =>
    cases rest with
    | nil => rw [hs] at h; simp at h
    | cons d rest2 =>
      cases rest2 with
      | cons x xs => rw [hs] at h; simp at h
      | nil =>
        rw [hs] at h
        change (localOk l && domainOk d) = true at h
        change (!l.isEmpty && l.all isSimpleCh && d.all isSimpleCh &&
          hasInnerDot d) = true
        obtain ⟨hl, hd⟩ := Bool.and_eq_true_iff.mp h
        simp only [Bool.and_eq_true]
        refine ⟨⟨⟨?_, all_isSimpleCh_of_localOk hl⟩,
          all_isSimpleCh_of_domainOk hd⟩, hasInnerDot_of_domainOk hd⟩
        have := localOk_ne_nil hl
        simp [this]

theorem rfcEmailTest_ne_nil {s : Str} (h : rfcEmailTest s = true) : s ≠ [] := by
  intro he
  subst he
  exact absurd h (by decide)

theorem validateName_isValid_iff {s : Str} (hself : jsTrim s = s) :
    (validateName s).isValid = true ↔
      (2 ≤ (jsTrim s).length ∧ (jsTrim s).length ≤ 50 ∧
        namePatternTest s = true) := by
  simp only [validateName]
  rw [hself]
  split_ifs with h0 h1 h2 h3
  · have : s = [] := by simpa using h0
    subst this
    simp
  · constructor
    · intro hf; simp at hf
    · intro hr; exact absurd hr.1 (by omega)
  · constructor
    · intro hf; simp at hf
    · intro hr; exact absurd hr.2.1 (by omega)
  · constructor
    · intro hf; simp at hf
    · intro hr
      rw [Bool.not_eq_true'] at h3
      rw [hr.2.2] at h3
      simp at h3
  · constructor
    · intro _
      exact ⟨by omega, by omega, by simpa using h3⟩
    · intro _; rfl

theorem validateEmailFormat_isValid_iff {s : Str} (hself : jsTrim s = s) :
    (validateEmailFormat s).isValid = true ↔ rfcEmailTest s = true := by
  simp only [validateEmailFormat]
  rw [hself]
  split_ifs with h0 h1
  · have : s = [] := by simpa using h0
    subst this
    simp
    decide
  · simp [h1]
  · constructor
    · intro hf; simp at hf
    · intro hr; exact absurd hr h1

theorem validateMessageLength_isValid_iff {s : Str} (hself : jsTrim s = s) :
    (validateMessageLength s).isValid = true ↔
      (10 ≤ (jsTrim s).length ∧ (jsTrim s).length ≤ 1000) := by
  simp only [validateMessageLength]
  rw [hself]
  split_ifs with h0 h1 h2
  · have : s = [] := by simpa using h0
    subst this
    simp
  · constructor
    · intro hf; simp at hf
    · intro hr; exact absurd hr.1 (by omega)
  · constructor
    · intro hf; simp at hf
    · intro hr; exact absurd hr.2 (by omega)
  · constructor
    · intro _; exact ⟨by omega, by omega⟩
    · intro _; rfl

theorem validateName_error_none_iff (s : Str) :
    ((validateName s).error = none) ↔ (validateName s).isValid = true := by
  simp only [validateName]
  split_ifs <;> simp

theorem validateEmailFormat_error_none_iff (s : Str) :
    ((validateEmailFormat s).error = none) ↔
      (validateEmailFormat s).isValid = true := by
  simp only [validateEmailFormat]
  split_ifs <;> simp

theorem validateMessageLength_error_none_iff (s : Str) :
    ((validateMessageLength s).error = none) ↔
      (validateMessageLength s).isValid = true := by
  simp only [validateMessageLength]
  split_ifs <;> simp

/-! ### The EmailJS service wrapper (`emailJSService.js`, `debugUtils.js`) -/

/-- Source: `ERROR_CATEGORIES` of `debugUtils.js` (distinct string constants,
modeled as an inductive type). -/
inductive ErrorCategory where
  | validation
  | network
  | service
  | configuration
  | rateLimit
  | unknown
  deriving DecidableEq

/-- Source: `String.prototype.includes`: substring test. -/
def strIncludes (n : Str) : Str → Bool
  | [] => n.isEmpty
  | c :: t => n.isPrefixOf (c :: t) || strIncludes n t

/-- The value of the JavaScript expression `error.status || error.code || 0`
used as the `status` local: a number, or one of this code base's string
error codes. -/
inductive StatusV where
  | num (n : Nat)
  | str (s : Str)
  deriving DecidableEq

/-- Strict equality `status === n` against a number: false on strings. -/
def statusEq : StatusV → Nat → Bool
  | .num m, n => m = n
  | .str _, _ => false

/-- Source: `lo <= status && status < hi`: JavaScript coerces a string operand to a
number, which for the (never numeric) string codes of this code base is
`NaN`, making the comparison false. -/
def statusInRange : StatusV → Nat → Nat → Bool
  | .num m, lo, hi => lo ≤ m && m < hi
  | .str _, _, _ => false

/-- An error object as handled by the service wrapper.  `status := 0`
models a missing (or zero, equally falsy) HTTP status. -/
structure RawError where
  message : Str := []
  name : Str := []
  status : Nat := 0
  code : Option Str := none
  category : Option ErrorCategory := none
  deriving DecidableEq

/-- Source: `error.status || error.code || 0`. -/
def statusVal (e : RawError) : StatusV :=
  if e.status ≠ 0 then .num e.status
  else
    match e.code with
    | some c => if !c.isEmpty then .str c else .num 0
    | none => .num 0

/-- Source: `SERVICE_CONFIG` of `emailJSService.js`. -/
structure ServiceConfigT where
  MAX_RETRY_ATTEMPTS : Nat
  RETRY_DELAY_MS : Nat
  REQUEST_TIMEOUT_MS : Nat
  EXPONENTIAL_BACKOFF_MULTIPLIER : Nat

def SERVICE_CONFIG : ServiceConfigT :=
  { MAX_RETRY_ATTEMPTS := 3
    RETRY_DELAY_MS := 1000
    REQUEST_TIMEOUT_MS := 30000
    EXPONENTIAL_BACKOFF_MULTIPLIER := 2 }

theorem max_retry_eq : SERVICE_CONFIG.MAX_RETRY_ATTEMPTS = 3 := rfl

/-- Source: `_calculateRetryDelay(error, attempt)`.  All the JavaScript floating
point arithmetic here is exact on integers; `baseDelay * 1.5` is written
`baseDelay * 3 / 2` (= 1500 exactly). -/
def calculateRetryDelay (error : RawError) (attempt : Nat) : Nat :=
  let baseDelay := SERVICE_CONFIG.RETRY_DELAY_MS
  let exponentialDelay :=
    baseDelay * SERVICE_CONFIG.EXPONENTIAL_BACKOFF_MULTIPLIER ^ (attempt - 1)
  if error.code = some ("RATE_LIMITED".toList) then
    min (5000 * 2 ^ (attempt - 1)) 30000
  else if error.code = some ("TIMEOUT".toList) then
    min (baseDelay * 2 *
      SERVICE_CONFIG.EXPONENTIAL_BACKOFF_MULTIPLIER ^ (attempt - 1)) 15000
  else if error.code = some ("SERVICE_UNAVAILABLE".toList) then
    min (baseDelay * 3 / 2 *
      SERVICE_CONFIG.EXPONENTIAL_BACKOFF_MULTIPLIER ^ (attempt - 1)) 10000
  else min exponentialDelay 8000

/-- Observable trace of one `_sendWithRetry(formData, formElement, attempt)`
call: how many send attempts were performed from this attempt number on,
which delays were awaited between them, and the final outcome (the resolved
send result or the error that escaped). -/
structure RetryTrace where
  attempts : Nat
  delays : List Nat
  result : Except RawError Unit

/-- Source: `_sendWithRetry`: the underlying `_sendEmailWithTimeout` outcome of the
`n`-th attempt is `outcomes n` (success, or rejection with a categorized
error).  Configuration and validation errors are rethrown without retry;
otherwise, below `MAX_RETRY_ATTEMPTS` the calculated delay is awaited and
the call recurses with `attempt + 1`; at the cap the error escapes.
Termination: each recursion strictly decreases `MAX_RETRY_ATTEMPTS -
attempt`. -/
def sendWithRetryAux (outcomes : Nat → Except RawError Unit)
    (attempt : Nat) : RetryTrace :=
  match outcomes attempt with
  | .ok r => { attempts := 1, delays := [], result := .ok r }
  | .error e =>
    if e.category = some ErrorCategory.configuration ∨
        e.category = some ErrorCategory.validation then
      { attempts := 1, delays := [], result := .error e }
    else if h : attempt < SERVICE_CONFIG.MAX_RETRY_ATTEMPTS then
      let rest := sendWithRetryAux outcomes (attempt + 1)
      { attempts := rest.attempts + 1
        delays := calculateRetryDelay e attempt :: rest.delays
        result := rest.result }
    else { attempts := 1, delays := [], result := .error e }
termination_by SERVICE_CONFIG.MAX_RETRY_ATTEMPTS - attempt
decreasing_by omega

/-- Source: `sendEmail` starts the retry loop at `attempt = 1`. -/
def sendWithRetry (outcomes : Nat → Except RawError Unit) : RetryTrace :=
  sendWithRetryAux outcomes 1

theorem sendWithRetryAux_attempts_pos
    (outcomes : Nat → Except RawError Unit) (a : Nat) :
    1 ≤ (sendWithRetryAux outcomes a).attempts := by
  unfold sendWithRetryAux
  cases outcomes a with
  | ok r => simp
  | error e =>
    simp only []
    by_cases hc : e.category = some ErrorCategory.configuration ∨
        e.category = some ErrorCategory.validation
    · rw [if_pos hc]
    · rw [if_neg hc]
      by_cases ha : a < SERVICE_CONFIG.MAX_RETRY_ATTEMPTS
      · rw [dif_pos ha]; simp
      · rw [dif_neg ha]

theorem sendWithRetryAux_attempts_at_cap
    (outcomes : Nat → Except RawError Unit) (a : Nat) (h : 3 ≤ a) :
    (sendWithRetryAux outcomes a).attempts = 1 := by
  unfold sendWithRetryAux
  cases outcomes a with
  | ok r => rfl
  | error e =>
    simp only []
    by_cases hc : e.category = some ErrorCategory.configuration ∨
        e.category = some ErrorCategory.validation
    · rw [if_pos hc]
    · rw [if_neg hc]
      have ha : ¬ a < SERVICE_CONFIG.MAX_RETRY_ATTEMPTS := by
        rw [max_retry_eq]; omega
      rw [dif_neg ha]

theorem sendWithRetryAux_attempts_le_three
    (outcomes : Nat → Except RawError Unit) :
    (sendWithRetryAux outcomes 1).attempts ≤ 3 := by
  have l3 := sendWithRetryAux_attempts_at_cap outcomes 3 (le_refl 3)
  have l2 : (sendWithRetryAux outcomes 2).attempts ≤ 2 := by
    unfold sendWithRetryAux
    cases outcomes 2 with
    | ok r => simp
    | error e =>
      simp only []
      by_cases hc : e.category = some ErrorCategory.configuration ∨
          e.category = some ErrorCategory.validation
      · rw [if_pos hc]; simp
      · rw [if_neg hc]
        rw [dif_pos (by rw [max_retry_eq]; omega)]
        simpa using Nat.succ_le_succ (le_of_eq l3)
  unfold sendWithRetryAux
  cases outcomes 1 with
  | ok r => simp
  | error e =>
    simp only []
    by_cases hc : e.category = some ErrorCategory.configuration ∨
        e.category = some ErrorCategory.validation
    · rw [if_pos hc]; simp
    · rw [if_neg hc]
      rw [dif_pos (by rw [max_retry_eq]; omega)]
      simpa using Nat.succ_le_succ l2

/-- Source: `_getNetworkErrorCode` (`emailJSService.js`); `message` is the
lower-cased error message the caller already computed, `online` is
`navigator.onLine`. -/
def getNetworkErrorCode (online : Bool) (message : Str) : Str :=
  if strIncludes ("timeout".toList) message then "TIMEOUT".toList
  else if strIncludes ("offline".toList) message || !online then
    "OFFLINE".toList
  else if strIncludes ("dns".toList) message ||
      strIncludes ("resolve".toList) message then "DNS_ERROR".toList
  else if strIncludes ("connection refused".toList) message then
    "CONNECTION_REFUSED".toList
  else if strIncludes ("connection reset".toList) message then
    "CONNECTION_RESET".toList
  else "NETWORK_ERROR".toList

/-- Source: `_getConfigurationErrorCode`: here `const status = error.status || 0`
uses only the numeric status field. -/
def getConfigurationErrorCode (e : RawError) (message : Str) : Str :=
  if e.status = 401 || strIncludes ("unauthorized".toList) message then
    "INVALID_API_KEY".toList
  else if e.status = 403 || strIncludes ("forbidden".toList) message then
    "ACCESS_DENIED".toList
  else if strIncludes ("service not found".toList) message then
    "INVALID_SERVICE_ID".toList
  else if strIncludes ("template not found".toList) message then
    "INVALID_TEMPLATE_ID".toList
  else "CONFIGURATION_ERROR".toList

/-- Source: `_categorizeAndEnhanceError`: the category and code assigned to the
error (in the source by mutation).  `online` is `navigator.onLine`. -/
def categorizeAndEnhanceError (online : Bool) (e : RawError) :
    ErrorCategory × Str :=
  let message := toLowerStr e.message
  let status := statusVal e
  if strIncludes ("network".toList) message ||
      strIncludes ("fetch".toList) message ||
      strIncludes ("connection".toList) message ||
      strIncludes ("offline".toList) message ||
      statusEq status 0 || !online then
    (.network, getNetworkErrorCode online message)
  else if statusEq status 429 ||
      strIncludes ("rate limit".toList) message ||
      strIncludes ("too many requests".toList) message ||
      strIncludes ("quota".toList) message then
    (.service, "RATE_LIMITED".toList)
  else if statusEq status 412 ||
      strIncludes ("gmail_api".toList) message ||
      strIncludes ("insufficient authentication scopes".toList) message then
    (.configuration, "GMAIL_API_AUTH_ERROR".toList)
  else if statusEq status 422 then
    (.configuration, "TEMPLATE_DATA_MISMATCH".toList)
  else if statusEq status 503 || statusEq status 502 || statusEq status 504 ||
      strIncludes ("service unavailable".toList) message ||
      strIncludes ("server error".toList) message ||
      strIncludes ("maintenance".toList) message ||
      strIncludes ("temporarily unavailable".toList) message then
    (.service, "SERVICE_UNAVAILABLE".toList)
  else if statusEq status 401 || statusEq status 403 ||
      strIncludes ("unauthorized".toList) message ||
      strIncludes ("forbidden".toList) message ||
      strIncludes ("invalid key".toList) message ||
      strIncludes ("invalid service".toList) message ||
      strIncludes ("template not found".toList) message ||
      strIncludes ("service not found".toList) message then
    (.configuration, getConfigurationErrorCode e message)
  else if statusEq status 400 ||
      strIncludes ("validation".toList) message ||
      strIncludes ("invalid".toList) message ||
      strIncludes ("required".toList) message ||
      strIncludes ("bad request".toList) message then
    (.validation, "VALIDATION_FAILED".toList)
  else if statusInRange status 500 600 then
    (.service, "SERVER_ERROR".toList)
  else (.unknown, "UNKNOWN_ERROR".toList)

/-- Source: `_getNetworkErrorMessage`; the `NETWORK_ERROR` case and the `default`
case of the switch return the same string, folded into the final else. -/
def getNetworkErrorMessage (errorCode : Str) : Str :=
  if errorCode = "TIMEOUT".toList then
    ("The request timed out. Please check your internet connection " ++
      "and try again.").toList
  else if errorCode = "OFFLINE".toList then
    ("You appear to be offline. Please check your internet connection " ++
      "and try again.").toList
  else if errorCode = "DNS_ERROR".toList then
    ("Unable to resolve email service address. Please check your " ++
      "internet connection.").toList
  else if errorCode = "CONNECTION_REFUSED".toList then
    "Connection to email service was refused. Please try again later.".toList
  else if errorCode = "CONNECTION_RESET".toList then
    "Connection to email service was interrupted. Please try again.".toList
  else
    ("Unable to connect to email service. Please check your internet " ++
      "connection and try again.").toList

/-- Source: `_getServiceErrorMessage`. -/
def getServiceErrorMessage (errorCode : Str) : Str :=
  if errorCode = "RATE_LIMITED".toList then
    ("Too many requests sent. Please wait a moment before sending " ++
      "another message.").toList
  else if errorCode = "SERVICE_UNAVAILABLE".toList then
    ("Email service is temporarily unavailable due to maintenance. " ++
      "Please try again later.").toList
  else if errorCode = "SERVER_ERROR".toList then
    ("Email service is experiencing technical difficulties. " ++
      "Please try again later.").toList
  else "Email service is temporarily unavailable. Please try again later.".toList

/-- Source: `_getConfigurationErrorMessage`. -/
def getConfigurationErrorMessage (errorCode : Str) : Str :=
  if errorCode = "GMAIL_API_AUTH_ERROR".toList then
    ("Gmail API authentication error. The EmailJS service needs to be " ++
      "re-authenticated with proper Gmail permissions. Please contact " ++
      "support to fix the Gmail API configuration.").toList
  else if errorCode = "TEMPLATE_DATA_MISMATCH".toList then
    ("Email template configuration mismatch. The form data does not " ++
      "match the EmailJS template variables. Please contact support " ++
      "to fix the template configuration.").toList
  else if errorCode = "INVALID_API_KEY".toList then
    "Email service authentication failed. Please contact support.".toList
  else if errorCode = "ACCESS_DENIED".toList then
    "Access to email service denied. Please contact support.".toList
  else if errorCode = "INVALID_SERVICE_ID".toList then
    ("Email service configuration error (invalid service). " ++
      "Please contact support.").toList
  else if errorCode = "INVALID_TEMPLATE_ID".toList then
    ("Email service configuration error (invalid template). " ++
      "Please contact support.").toList
  else "Email service configuration error. Please contact support.".toList

/-- Source: `_getFallbackErrorMessage`. -/
def getFallbackErrorMessage (e : RawError) : Str :=
  if !e.message.isEmpty then
    ("An unexpected error occurred while sending your message. Please " ++
      "try again, and if the problem persists, contact support.").toList
  else "An unexpected error occurred. Please try again.".toList

/-- Source: `_getUserFriendlyErrorMessage`: `error.code || "UNKNOWN"`, then a
switch on the category whose default is the fallback (covering the
`RATE_LIMIT` and `UNKNOWN` categories and an absent category). -/
def getUserFriendlyErrorMessage (e : RawError) : Str :=
  let errorCode :=
    match e.code with
    | some c => if !c.isEmpty then c else "UNKNOWN".toList
    | none => "UNKNOWN".toList
  match e.category with
  | some .network => getNetworkErrorMessage errorCode
  | some .service => getServiceErrorMessage errorCode
  | some .configuration => getConfigurationErrorMessage errorCode
  | some .validation => "Please check your form data and try again.".toList
  | _ => getFallbackErrorMessage e

/-- Source: `categorizeError` of `debugUtils.js`, as used by
`errorTracker.trackError`: if the error already carries both a (truthy)
category and code they are preserved, otherwise keyword/status heuristics
pick one.  (The source also mutates codes onto the error, but the object
`trackError` returns never carries them, so only the category matters.) -/
def categorizeErrorDU (e : RawError) : ErrorCategory :=
  let message := toLowerStr e.message
  let name := toLowerStr e.name
  let status := statusVal e
  if e.category.isSome &&
      (match e.code with | some c => !c.isEmpty | none => false) then
    e.category.getD .unknown
  else if strIncludes ("network".toList) message ||
      strIncludes ("fetch".toList) message ||
      strIncludes ("network".toList) name ||
      strIncludes ("connection".toList) message ||
      strIncludes ("offline".toList) message ||
      statusEq status 0 then .network
  else if statusEq status 429 ||
      strIncludes ("rate limit".toList) message ||
      strIncludes ("too many requests".toList) message then .service
  else if strIncludes ("service".toList) message ||
      strIncludes ("emailjs".toList) message ||
      strIncludes ("template".toList) message ||
      strIncludes ("server error".toList) message ||
      strIncludes ("unavailable".toList) message ||
      statusInRange status 500 600 then .service
  else if strIncludes ("config".toList) message ||
      strIncludes ("key".toList) message ||
      strIncludes ("id".toList) message ||
      strIncludes ("unauthorized".toList) message ||
      strIncludes ("forbidden".toList) message ||
      statusEq status 401 || statusEq status 403 then .configuration
  else if strIncludes ("validation".toList) message ||
      strIncludes ("invalid".toList) message ||
      strIncludes ("required".toList) message ||
      statusEq status 400 then .validation
  else .unknown

/-- Source: `errorTracker.trackError` (via `trackEmailJSError`): the returned
object spreads `errorInfo`, which carries the (defaulted) message and name
but neither the status nor a code; the category is the computed one. -/
def trackError (e : RawError) : RawError :=
  { message := if e.message.isEmpty then "Unknown error".toList
      else e.message
    name := e.name
    status := 0
    code := none
    category := some (categorizeErrorDU e) }

/-- The observable outcome of `sendEmail`: the resolved object's `success`
and `message` fields, plus how many send attempts were performed. -/
structure SendEmailResult where
  success : Bool
  message : Str
  sendAttempts : Nat

/-- Source: `Array.prototype.join(", ")`. -/
def joinComma : List Str → Str
  | [] => []
  | [e] => e
  | e :: es => e ++ (", ".toList) ++ joinComma es

/-- Source: `sendEmail(formData, formElement)`: initialize (outcome `initResult`),
validate the form data, then run the retry loop; every thrown error is
caught, tracked (`trackEmailJSError`) and turned into a user-facing
message.  `outcomes` gives the result of each underlying send attempt. -/
def sendEmail (initResult : Except RawError Unit)
    (fd : FormData) (outcomes : Nat → Except RawError Unit) :
    SendEmailResult :=
  match initResult with
  | .error e =>
    { success := false
      message := getUserFriendlyErrorMessage (trackError e)
      sendAttempts := 0 }
  | .ok _ =>
    let validation := validateFormData fd
    if !validation.isValid then
      let e : RawError :=
        { message := "Form validation failed: ".toList ++
            joinComma validation.errors
          name := "Error".toList
          status := 0
          code := none
          category := some .validation }
      { success := false
        message := getUserFriendlyErrorMessage (trackError e)
        sendAttempts := 0 }
    else
      let t := sendWithRetryAux outcomes 1
      match t.result with
      | .ok _ =>
        { success := true
          message := "Email sent successfully".toList
          sendAttempts := t.attempts }
      | .error e =>
        { success := false
          message := getUserFriendlyErrorMessage (trackError e)
          sendAttempts := t.attempts }

theorem getNetworkErrorMessage_ne_nil (c : Str) :
    getNetworkErrorMessage c ≠ [] := by
  unfold getNetworkErrorMessage
  split_ifs <;> decide

theorem getServiceErrorMessage_ne_nil (c : Str) :
    getServiceErrorMessage c ≠ [] := by
  unfold getServiceErrorMessage
  split_ifs <;> decide

theorem getConfigurationErrorMessage_ne_nil (c : Str) :
    getConfigurationErrorMessage c ≠ [] := by
  unfold getConfigurationErrorMessage
  split_ifs <;> decide

theorem getFallbackErrorMessage_ne_nil (e : RawError) :
    getFallbackErrorMessage e ≠ [] := by
  unfold getFallbackErrorMessage
  split_ifs <;> decide

theorem getUserFriendlyErrorMessage_ne_nil (e : RawError) :
    getUserFriendlyErrorMessage e ≠ [] := by
  simp only [getUserFriendlyErrorMessage]
  cases hc : e.category with
  | none => exact getFallbackErrorMessage_ne_nil e
  | some cat =>
    cases cat with
    | validation => simp only []; decide
    | network => exact getNetworkErrorMessage_ne_nil _
    | service => exact getServiceErrorMessage_ne_nil _
    | configuration => exact getConfigurationErrorMessage_ne_nil _
    | rateLimit => exact getFallbackErrorMessage_ne_nil e
    | unknown => exact getFallbackErrorMessage_ne_nil e

theorem sendEmail_message_ne_nil (initResult : Except RawError Unit)
    (fd : FormData) (outcomes : Nat → Except RawError Unit) :
    (sendEmail initResult fd outcomes).message ≠ [] := by
  unfold sendEmail
  cases initResult with
  | error e => exact getUserFriendlyErrorMessage_ne_nil _
  | ok u =>
    simp only []
    by_cases hv : (validateFormData fd).isValid
    · rw [if_neg (by simp [hv])]
      cases ht : (sendWithRetryAux outcomes 1).result with
      | ok r => simp only []; decide
      | error e => exact getUserFriendlyErrorMessage_ne_nil _
    · have hv' : (validateFormData fd).isValid = false := by simpa using hv
      rw [if_pos (by simp [hv'])]
      exact getUserFriendlyErrorMessage_ne_nil _

/-- One step of `_sendWithRetry`, by the three cases of its catch block. -/
theorem sendWithRetryAux_step (outcomes : Nat → Except RawError Unit)
    (a : Nat) (e : RawError) (ho : outcomes a = .error e) :
    ((e.category = some ErrorCategory.configuration ∨
        e.category = some ErrorCategory.validation) →
      sendWithRetryAux outcomes a =
        { attempts := 1, delays := [], result := .error e }) ∧
    (¬(e.category = some ErrorCategory.configuration ∨
        e.category = some ErrorCategory.validation) →
      a < SERVICE_CONFIG.MAX_RETRY_ATTEMPTS →
      sendWithRetryAux outcomes a =
        { attempts := (sendWithRetryAux outcomes (a + 1)).attempts + 1
          delays := calculateRetryDelay e a ::
            (sendWithRetryAux outcomes (a + 1)).delays
          result := (sendWithRetryAux outcomes (a + 1)).result }) ∧
    (¬(e.category = some ErrorCategory.configuration ∨
        e.category = some ErrorCategory.validation) →
      ¬ a < SERVICE_CONFIG.MAX_RETRY_ATTEMPTS →
      sendWithRetryAux outcomes a =
        { attempts := 1, delays := [], result := .error e }) := by
  refine ⟨?_, ?_, ?_⟩
  · intro hc
    conv_lhs => rw [sendWithRetryAux]
    rw [ho]
    simp only [if_pos hc]
  · intro hc ha
    conv_lhs => rw [sendWithRetryAux]
    rw [ho]
    simp only [if_neg hc]
    rw [dif_pos ha]
  · intro hc ha
    conv_lhs => rw [sendWithRetryAux]
    rw [ho]
    simp only [if_neg hc]
    rw [dif_neg ha]

/-- C1: For every form-data input and every sequence of failure outcomes of
the underlying send operation, the retry loop of `sendEmail`
(`_sendWithRetry`, started at `attempt = 1`) performs at least 1 and at
most `SERVICE_CONFIG.MAX_RETRY_ATTEMPTS = 3` send attempts and always
terminates (the loop is a total function of the outcome sequence), each
recursive call increases the attempt counter by exactly 1, and recursion
stops once the attempt counter reaches `MAX_RETRY_ATTEMPTS` (from there
exactly one further attempt is made and no recursion occurs). -/
theorem retry_loop_bounded_claim_C1
    (outcomes : Nat → Except RawError Unit) :
    (1 ≤ (sendWithRetry outcomes).attempts ∧
      (sendWithRetry outcomes).attempts ≤ SERVICE_CONFIG.MAX_RETRY_ATTEMPTS) ∧
    (∀ a e, outcomes a = .error e →
      ¬(e.category = some ErrorCategory.configuration ∨
        e.category = some ErrorCategory.validation) →
      a < SERVICE_CONFIG.MAX_RETRY_ATTEMPTS →
      (sendWithRetryAux outcomes a).attempts =
        (sendWithRetryAux outcomes (a + 1)).attempts + 1) ∧
    (∀ a, SERVICE_CONFIG.MAX_RETRY_ATTEMPTS ≤ a →
      (sendWithRetryAux outcomes a).attempts = 1) := by
  refine ⟨⟨sendWithRetryAux_attempts_pos outcomes 1, ?_⟩, ?_, ?_⟩
  · rw [max_retry_eq]
    exact sendWithRetryAux_attempts_le_three outcomes
  · intro a e ho hc ha
    rw [((sendWithRetryAux_step outcomes a e ho).2.1 hc ha)]
  · intro a ha
    rw [max_retry_eq] at ha
    exact sendWithRetryAux_attempts_at_cap outcomes a ha

theorem retry_loop_bounded_claim_C1_witness :
    (1 ≤ (sendWithRetry (fun _ => Except.ok ())).attempts ∧
      (sendWithRetry (fun _ => Except.ok ())).attempts ≤
        SERVICE_CONFIG.MAX_RETRY_ATTEMPTS) ∧
    (sendWithRetryAux (fun _ => Except.ok ()) 3).attempts = 1 :=
  ⟨(retry_loop_bounded_claim_C1 (fun _ => Except.ok ())).1,
    (retry_loop_bounded_claim_C1 (fun _ => Except.ok ())).2.2 3 (by decide)⟩

/-- C2: retry delays increase: for every error object and every attempt
number `n` with `1 ≤ n < 3` (so that the `n`-th and `(n+1)`-th delays can
both occur under `MAX_RETRY_ATTEMPTS = 3`), the delay
`_calculateRetryDelay(error, n+1)` is strictly greater than
`_calculateRetryDelay(error, n)` — for the `RATE_LIMITED`, `TIMEOUT` and
`SERVICE_UNAVAILABLE` codes and for the default case alike. -/
theorem retry_delay_increasing_claim_C2 (e : RawError) (n : Nat)
    (h1 : 1 ≤ n) (h2 : n < 3) :
    calculateRetryDelay e n < calculateRetryDelay e (n + 1) := by
  unfold calculateRetryDelay
  interval_cases n <;> split_ifs <;> decide

theorem retry_delay_increasing_claim_C2_witness :
    calculateRetryDelay
      { message := [], name := [], status := 0
        code := some ("RATE_LIMITED".toList), category := none } 1 <
    calculateRetryDelay
      { message := [], name := [], status := 0
        code := some ("RATE_LIMITED".toList), category := none } 2 :=
  retry_delay_increasing_claim_C2 _ 1 (by decide) (by decide)

/-- C3: closed forms of the backoff delays, for every attempt `n ≥ 1`: the
default case is `min(RETRY_DELAY_MS * EXPONENTIAL_BACKOFF_MULTIPLIER ^
(n-1), 8000) = min(1000 * 2^(n-1), 8000)`; `RATE_LIMITED` gives
`min(5000 * 2^(n-1), 30000)`; `TIMEOUT` gives `min(2000 * 2^(n-1),
15000)`; `SERVICE_UNAVAILABLE` gives `min(1500 * 2^(n-1), 10000)`
(milliseconds). -/
theorem retry_delay_formula_claim_C3 (e : RawError) (n : Nat)
    (_h1 : 1 ≤ n) :
    (e.code = some ("RATE_LIMITED".toList) →
      calculateRetryDelay e n = min (5000 * 2 ^ (n - 1)) 30000) ∧
    (e.code = some ("TIMEOUT".toList) →
      calculateRetryDelay e n = min (2000 * 2 ^ (n - 1)) 15000) ∧
    (e.code = some ("SERVICE_UNAVAILABLE".toList) →
      calculateRetryDelay e n = min (1500 * 2 ^ (n - 1)) 10000) ∧
    (e.code ≠ some ("RATE_LIMITED".toList) →
      e.code ≠ some ("TIMEOUT".toList) →
      e.code ≠ some ("SERVICE_UNAVAILABLE".toList) →
      calculateRetryDelay e n = min (1000 * 2 ^ (n - 1)) 8000) := by
  refine ⟨?_, ?_, ?_, ?_⟩
  · intro hc
    simp only [calculateRetryDelay]
    rw [if_pos hc]
  · intro hc
    simp only [calculateRetryDelay]
    rw [if_neg (by rw [hc]; decide), if_pos hc]
    norm_num [SERVICE_CONFIG]
  · intro hc
    simp only [calculateRetryDelay]
    rw [if_neg (by rw [hc]; decide), if_neg (by rw [hc]; decide), if_pos hc]
    norm_num [SERVICE_CONFIG]
  · intro hc1 hc2 hc3
    simp only [calculateRetryDelay]
    rw [if_neg hc1, if_neg hc2, if_neg hc3]
    norm_num [SERVICE_CONFIG]

theorem retry_delay_formula_claim_C3_witness :
    calculateRetryDelay
      { message := [], name := [], status := 0
        code := some ("RATE_LIMITED".toList), category := none } 1 =
      min (5000 * 2 ^ (1 - 1)) 30000 ∧
    calculateRetryDelay
      { message := [], name := [], status := 0
        code := some ("TIMEOUT".toList), category := none } 1 =
      min (2000 * 2 ^ (1 - 1)) 15000 ∧
    calculateRetryDelay
      { message := [], name := [], status := 0
        code := some ("SERVICE_UNAVAILABLE".toList), category := none } 1 =
      min (1500 * 2 ^ (1 - 1)) 10000 ∧
    calculateRetryDelay
      { message := [], name := [], status := 0
        code := none, category := none } 1 =
      min (1000 * 2 ^ (1 - 1)) 8000 :=
  ⟨(retry_delay_formula_claim_C3 _ 1 (by decide)).1 rfl,
   (retry_delay_formula_claim_C3 _ 1 (by decide)).2.1 rfl,
   (retry_delay_formula_claim_C3 _ 1 (by decide)).2.2.1 rfl,
   (retry_delay_formula_claim_C3 _ 1 (by decide)).2.2.2
     (by decide) (by decide) (by decide)⟩

/-- C4: error classification gates retry.  When a send attempt inside
`_sendWithRetry` fails with an error of category `CONFIGURATION` or
`VALIDATION`, the error is rethrown immediately: exactly one attempt
happens at that level, with no delay, and the error is the result.  For
every other error category, as long as the attempt counter is below
`MAX_RETRY_ATTEMPTS`, the calculated delay is awaited and a retry is
attempted (one more attempt than the remaining loop performs). -/
theorem nonretryable_gates_retry_claim_C4
    (outcomes : Nat → Except RawError Unit) (a : Nat) (e : RawError)
    (ho : outcomes a = .error e) :
    ((e.category = some ErrorCategory.configuration ∨
        e.category = some ErrorCategory.validation) →
      sendWithRetryAux outcomes a =
        { attempts := 1, delays := [], result := .error e }) ∧
    (¬(e.category = some ErrorCategory.configuration ∨
        e.category = some ErrorCategory.validation) →
      a < SERVICE_CONFIG.MAX_RETRY_ATTEMPTS →
      sendWithRetryAux outcomes a =
        { attempts := (sendWithRetryAux outcomes (a + 1)).attempts + 1
          delays := calculateRetryDelay e a ::
            (sendWithRetryAux outcomes (a + 1)).delays
          result := (sendWithRetryAux outcomes (a + 1)).result }) :=
  ⟨(sendWithRetryAux_step outcomes a e ho).1,
   (sendWithRetryAux_step outcomes a e ho).2.1⟩

theorem nonretryable_gates_retry_claim_C4_witness :
    (sendWithRetryAux
        (fun _ => Except.error
          { message := [], name := [], status := 0, code := none
            category := some ErrorCategory.configuration }) 1 =
      { attempts := 1, delays := []
        result := Except.error
          { message := [], name := [], status := 0, code := none
            category := some ErrorCategory.configuration } }) ∧
    (sendWithRetryAux
        (fun _ => Except.error
          { message := [], name := [], status := 0, code := none
            category := some ErrorCategory.network }) 1 =
      { attempts :=
          (sendWithRetryAux
            (fun _ => Except.error
              { message := [], name := [], status := 0, code := none
                category := some ErrorCategory.network }) 2).attempts + 1
        delays := calculateRetryDelay
            { message := [], name := [], status := 0, code := none
              category := some ErrorCategory.network } 1 ::
          (sendWithRetryAux
            (fun _ => Except.error
              { message := [], name := [], status := 0, code := none
                category := some ErrorCategory.network }) 2).delays
        result :=
          (sendWithRetryAux
            (fun _ => Except.error
              { message := [], name := [], status := 0, code := none
                category := some ErrorCategory.network }) 2).result }) :=
  ⟨(nonretryable_gates_retry_claim_C4 _ 1 _ rfl).1 (by decide),
   (nonretryable_gates_retry_claim_C4 _ 1 _ rfl).2 (by decide) (by decide)⟩

/-- C5: validation precedes the HTTP call.  If `validateFormData` rejects
the form data, `sendEmail` performs zero send attempts and resolves with
`success = false`; if it accepts and the service is initialized (the
initialization outcome is success), at least one send attempt is made. -/
theorem validation_gates_send_claim_C5 (fd : FormData)
    (outcomes : Nat → Except RawError Unit) :
    ((validateFormData fd).isValid = false →
      (sendEmail (Except.ok ()) fd outcomes).sendAttempts = 0 ∧
      (sendEmail (Except.ok ()) fd outcomes).success = false) ∧
    ((validateFormData fd).isValid = true →
      1 ≤ (sendEmail (Except.ok ()) fd outcomes).sendAttempts) := by
  constructor
  · intro hv
    unfold sendEmail
    simp only []
    rw [if_pos (by simp [hv])]
    exact ⟨rfl, rfl⟩
  · intro hv
    unfold sendEmail
    simp only []
    rw [if_neg (by simp [hv])]
    cases ht : (sendWithRetryAux outcomes 1).result with
    | ok r =>
      simp only []
      exact sendWithRetryAux_attempts_pos outcomes 1
    | error e2 =>
      simp only []
      exact sendWithRetryAux_attempts_pos outcomes 1

theorem validation_gates_send_claim_C5_witness :
    ((sendEmail (Except.ok ()) ⟨none, none, none⟩
        (fun _ => Except.ok ())).sendAttempts = 0 ∧
      (sendEmail (Except.ok ()) ⟨none, none, none⟩
        (fun _ => Except.ok ())).success = false) ∧
    1 ≤ (sendEmail (Except.ok ())
        ⟨some ("John".toList), some ("john@example.com".toList),
          some ("Hello there, message!".toList)⟩
        (fun _ => Except.ok ())).sendAttempts :=
  ⟨(validation_gates_send_claim_C5 ⟨none, none, none⟩
      (fun _ => Except.ok ())).1 (by decide),
   (validation_gates_send_claim_C5 _ (fun _ => Except.ok ())).2 (by decide)⟩

/-- C9: `sendEmail` never throws — it is a total function whose result
always carries a Boolean `success` field — and its `message` field is
always a nonempty string (in particular when `success` is false), because
`_getUserFriendlyErrorMessage` returns a nonempty string for every
combination of error category and error code, including the
unknown/fallback cases. -/
theorem send_email_total_claim_C9 (initResult : Except RawError Unit)
    (fd : FormData) (outcomes : Nat → Except RawError Unit) :
    ((sendEmail initResult fd outcomes).success = true ∨
      (sendEmail initResult fd outcomes).success = false) ∧
    (sendEmail initResult fd outcomes).message ≠ [] ∧
    (∀ e : RawError, getUserFriendlyErrorMessage e ≠ []) :=
  ⟨Bool.eq_false_or_eq_true _,
   sendEmail_message_ne_nil initResult fd outcomes,
   fun e => getUserFriendlyErrorMessage_ne_nil e⟩

theorem fieldErrorCount (r : FieldResult)
    (hr : (r.error = none) ↔ r.isValid = true) :
    r.error.toList.length = if r.isValid = true then 0 else 1 := by
  cases he : r.error with
  | none => rw [if_pos (hr.mp he)]; rfl
  | some m =>
    rw [if_neg ?_]
    · rfl
    · intro hv
      have h2 := hr.mpr hv
      rw [he] at h2
      cases h2

theorem optionToList_nil (o : Option Str) : o.toList = [] ↔ o = none := by
  cases o <;> simp

/-- C6: `validateContactForm` sanitizes the three fields with
`sanitizeInput`, returns `isValid = true` exactly when the sanitized name
has trimmed length in 2..50 and matches the name pattern, the sanitized
email matches `VALIDATION_RULES.EMAIL.PATTERN`, and the sanitized message
has trimmed length in 10..1000; its `errors` array holds exactly one
message per failing field and is empty exactly when the form is valid. -/
theorem contact_form_validation_claim_C6 (fd : FormData) :
    (validateContactForm fd).sanitizedData =
      { user_name := sanitizeInput fd.user_name
        user_email := sanitizeInput fd.user_email
        message := sanitizeInput fd.message } ∧
    ((validateContactForm fd).isValid = true ↔
      ((2 ≤ (jsTrim (sanitizeInput fd.user_name)).length ∧
        (jsTrim (sanitizeInput fd.user_name)).length ≤ 50 ∧
        namePatternTest (sanitizeInput fd.user_name) = true) ∧
       rfcEmailTest (sanitizeInput fd.user_email) = true ∧
       (10 ≤ (jsTrim (sanitizeInput fd.message)).length ∧
        (jsTrim (sanitizeInput fd.message)).length ≤ 1000))) ∧
    (validateContactForm fd).errors.length =
      ((if 2 ≤ (jsTrim (sanitizeInput fd.user_name)).length ∧
          (jsTrim (sanitizeInput fd.user_name)).length ≤ 50 ∧
          namePatternTest (sanitizeInput fd.user_name) = true
        then 0 else 1) +
       (if rfcEmailTest (sanitizeInput fd.user_email) = true
        then 0 else 1) +
       (if 10 ≤ (jsTrim (sanitizeInput fd.message)).length ∧
          (jsTrim (sanitizeInput fd.message)).length ≤ 1000
        then 0 else 1)) ∧
    ((validateContactForm fd).errors = [] ↔
      (validateContactForm fd).isValid = true) := by
  have hn := validateName_isValid_iff (jsTrim_sanitizeInput fd.user_name)
  have he := validateEmailFormat_isValid_iff (jsTrim_sanitizeInput fd.user_email)
  have hm := validateMessageLength_isValid_iff (jsTrim_sanitizeInput fd.message)
  have hv : (validateContactForm fd).isValid =
      ((validateName (sanitizeInput fd.user_name)).isValid &&
       (validateEmailFormat (sanitizeInput fd.user_email)).isValid &&
       (validateMessageLength (sanitizeInput fd.message)).isValid) := rfl
  have herr : (validateContactForm fd).errors =
      (validateName (sanitizeInput fd.user_name)).error.toList ++
      (validateEmailFormat (sanitizeInput fd.user_email)).error.toList ++
      (validateMessageLength (sanitizeInput fd.message)).error.toList := rfl
  refine ⟨rfl, ?_, ?_, ?_⟩
  · rw [hv]
    simp only [Bool.and_eq_true]
    constructor
    · rintro ⟨⟨ha, hb⟩, hc⟩
      exact ⟨hn.mp ha, he.mp hb, hm.mp hc⟩
    · rintro ⟨ha, hb, hc⟩
      exact ⟨⟨hn.mpr ha, he.mpr hb⟩, hm.mpr hc⟩
  · rw [herr, List.length_append, List.length_append]
    rw [fieldErrorCount _ (validateName_error_none_iff _),
      fieldErrorCount _ (validateEmailFormat_error_none_iff _),
      fieldErrorCount _ (validateMessageLength_error_none_iff _)]
    rw [if_congr hn rfl rfl, if_congr he rfl rfl, if_congr hm rfl rfl]
  · rw [herr, hv]
    constructor
    · intro hemp
      obtain ⟨h12, h3⟩ := List.append_eq_nil.mp hemp
      obtain ⟨h1, h2⟩ := List.append_eq_nil.mp h12
      rw [optionToList_nil] at h1 h2 h3
      simp only [Bool.and_eq_true]
      exact ⟨⟨(validateName_error_none_iff _).mp h1,
        (validateEmailFormat_error_none_iff _).mp h2⟩,
        (validateMessageLength_error_none_iff _).mp h3⟩
    · intro hval
      simp only [Bool.and_eq_true] at hval
      obtain ⟨⟨h1, h2⟩, h3⟩ := hval
      rw [(optionToList_nil _).mpr ((validateName_error_none_iff _).mpr h1),
        (optionToList_nil _).mpr ((validateEmailFormat_error_none_iff _).mpr h2),
        (optionToList_nil _).mpr ((validateMessageLength_error_none_iff _).mpr h3)]
      rfl

/-- C8: the service-level validator refines the form-level validator —
whenever `validateContactForm` accepts, `validateFormData` applied to the
returned sanitized data also accepts, so the email service never rejects
data that passed the contact form's comprehensive validation. -/
theorem service_refines_form_claim_C8 (fd : FormData)
    (h : (validateContactForm fd).isValid = true) :
    (validateFormData (toFormData
      (validateContactForm fd).sanitizedData)).isValid = true := by
  have hv : ((validateName (sanitizeInput fd.user_name)).isValid &&
      (validateEmailFormat (sanitizeInput fd.user_email)).isValid &&
      (validateMessageLength (sanitizeInput fd.message)).isValid) = true := h
  simp only [Bool.and_eq_true] at hv
  obtain ⟨⟨ha, hb⟩, hc⟩ := hv
  obtain ⟨hn1, hn2, _⟩ :=
    (validateName_isValid_iff (jsTrim_sanitizeInput fd.user_name)).mp ha
  have hrfc :=
    (validateEmailFormat_isValid_iff (jsTrim_sanitizeInput fd.user_email)).mp hb
  obtain ⟨hm1, hm2⟩ :=
    (validateMessageLength_isValid_iff (jsTrim_sanitizeInput fd.message)).mp hc
  rw [jsTrim_sanitizeInput] at hn1 hn2 hm1 hm2
  have hnne : sanitizeInput fd.user_name ≠ [] := by
    intro hz; rw [hz] at hn1; simp at hn1
  have hene : sanitizeInput fd.user_email ≠ [] := rfcEmailTest_ne_nil hrfc
  have hmne : sanitizeInput fd.message ≠ [] := by
    intro hz; rw [hz] at hm1; simp at hm1
  have hsimple := simpleEmailTest_of_rfc hrfc
  have c1 : fieldMissing (some (sanitizeInput fd.user_name)) = false := by
    simp [fieldMissing, jsTrim_sanitizeInput, hnne]
  have c2 : fieldMissing (some (sanitizeInput fd.user_email)) = false := by
    simp [fieldMissing, jsTrim_sanitizeInput, hene]
  have c3 : fieldMissing (some (sanitizeInput fd.message)) = false := by
    simp [fieldMissing, jsTrim_sanitizeInput, hmne]
  have c4 : emailFormatBad (some (sanitizeInput fd.user_email)) = false := by
    simp [emailFormatBad, hsimple]
  have c5 : fieldTooLong 50 (some (sanitizeInput fd.user_name)) = false := by
    simp only [fieldTooLong, Bool.and_eq_false_iff]
    right
    simpa using by omega
  have c6 : fieldTooShort 10 (some (sanitizeInput fd.message)) = false := by
    simp only [fieldTooShort, Bool.and_eq_false_iff]
    right
    simpa using by omega
  have c7 : fieldTooLong 1000 (some (sanitizeInput fd.message)) = false := by
    simp only [fieldTooLong, Bool.and_eq_false_iff]
    right
    simpa using by omega
  show (validateFormData
      { user_name := some (sanitizeInput fd.user_name)
        user_email := some (sanitizeInput fd.user_email)
        message := some (sanitizeInput fd.message) }).isValid = true
  simp only [validateFormData]
  simp [c1, c2, c3, c4, c5, c6, c7]

theorem service_refines_form_claim_C8_witness :
    (validateFormData (toFormData
      (validateContactForm
        { user_name := some ("John Doe".toList)
          user_email := some ("john.doe@example.com".toList)
          message := some ("Hello, this is a test message.".toList) }
      ).sanitizedData)).isValid = true :=
  service_refines_form_claim_C8 _ (by decide)

theorem getNetworkErrorCode_ne_nil (online : Bool) (m : Str) :
    getNetworkErrorCode online m ≠ [] := by
  unfold getNetworkErrorCode
  split_ifs <;> decide

theorem getConfigurationErrorCode_ne_nil (e : RawError) (m : Str) :
    getConfigurationErrorCode e m ≠ [] := by
  unfold getConfigurationErrorCode
  split_ifs <;> decide

theorem categorize_total (online : Bool) (e : RawError) :
    ((categorizeAndEnhanceError online e).1 = ErrorCategory.network ∨
     (categorizeAndEnhanceError online e).1 = ErrorCategory.service ∨
     (categorizeAndEnhanceError online e).1 = ErrorCategory.configuration ∨
     (categorizeAndEnhanceError online e).1 = ErrorCategory.validation ∨
     (categorizeAndEnhanceError online e).1 = ErrorCategory.unknown) ∧
    (categorizeAndEnhanceError online e).2 ≠ [] := by
  simp only [categorizeAndEnhanceError]
  split_ifs <;>
    refine ⟨by simp, ?_⟩ <;>
    first
      | decide
      | exact getNetworkErrorCode_ne_nil _ _
      | exact getConfigurationErrorCode_ne_nil _ _

/-- The keywords scanned by the classification branches of
`_categorizeAndEnhanceError`. -/
def classifierKeywords : List Str :=
  ["network".toList, "fetch".toList, "connection".toList, "offline".toList,
   "rate limit".toList, "too many requests".toList, "quota".toList,
   "gmail_api".toList, "insufficient authentication scopes".toList,
   "service unavailable".toList, "server error".toList,
   "maintenance".toList, "temporarily unavailable".toList,
   "unauthorized".toList, "forbidden".toList, "invalid key".toList,
   "invalid service".toList, "template not found".toList,
   "service not found".toList, "validation".toList, "invalid".toList,
   "required".toList, "bad request".toList]

/-- Does the (lower-cased) message contain any classification keyword? -/
def hasClassifierKeyword (m : Str) : Bool :=
  classifierKeywords.any (fun w => strIncludes w m)

theorem no_keyword_elim {m : Str} (h : hasClassifierKeyword m = false) :
    ∀ w ∈ classifierKeywords, strIncludes w m = false := by
  intro w hw
  by_contra hc
  rw [Bool.not_eq_false] at hc
  have : hasClassifierKeyword m = true := List.any_eq_true.mpr ⟨w, hw, hc⟩
  rw [h] at this
  cases this

/-- C7 (amended): error classification is total — for every error object
`_categorizeAndEnhanceError` assigns a category among NETWORK, SERVICE,
CONFIGURATION, VALIDATION, UNKNOWN and a nonempty string code — and, for
an online client whose error message contains no keyword scanned by any
classification branch (not only the network keywords: the original claim
is refuted by `status_mapping_claim_C7_counterexample` below, since e.g. a
412 error whose message contains "quota" is classified as rate limiting),
the statuses map as follows: 429 to SERVICE/RATE_LIMITED, 412 to
CONFIGURATION/GMAIL_API_AUTH_ERROR, 422 to
CONFIGURATION/TEMPLATE_DATA_MISMATCH, 502/503/504 to
SERVICE/SERVICE_UNAVAILABLE, 401/403 to CONFIGURATION, and 400 to
VALIDATION/VALIDATION_FAILED. -/
theorem status_mapping_claim_C7 (online : Bool) (e : RawError)
    (hk : hasClassifierKeyword (toLowerStr e.message) = false)
    (hon : online = true) :
    (∀ (b : Bool) (x : RawError),
      ((categorizeAndEnhanceError b x).1 = ErrorCategory.network ∨
       (categorizeAndEnhanceError b x).1 = ErrorCategory.service ∨
       (categorizeAndEnhanceError b x).1 = ErrorCategory.configuration ∨
       (categorizeAndEnhanceError b x).1 = ErrorCategory.validation ∨
       (categorizeAndEnhanceError b x).1 = ErrorCategory.unknown) ∧
      (categorizeAndEnhanceError b x).2 ≠ []) ∧
    (e.status = 429 → categorizeAndEnhanceError online e =
      (ErrorCategory.service, "RATE_LIMITED".toList)) ∧
    (e.status = 412 → categorizeAndEnhanceError online e =
      (ErrorCategory.configuration, "GMAIL_API_AUTH_ERROR".toList)) ∧
    (e.status = 422 → categorizeAndEnhanceError online e =
      (ErrorCategory.configuration, "TEMPLATE_DATA_MISMATCH".toList)) ∧
    (e.status = 502 ∨ e.status = 503 ∨ e.status = 504 →
      categorizeAndEnhanceError online e =
        (ErrorCategory.service, "SERVICE_UNAVAILABLE".toList)) ∧
    (e.status = 401 ∨ e.status = 403 →
      (categorizeAndEnhanceError online e).1 =
        ErrorCategory.configuration) ∧
    (e.status = 400 → categorizeAndEnhanceError online e =
      (ErrorCategory.validation, "VALIDATION_FAILED".toList)) := by
  have hall := no_keyword_elim hk
  have k01 : strIncludes ['n', 'e', 't', 'w', 'o', 'r', 'k'] (toLowerStr e.message) = false := by
    simpa using hall _ (by decide)
  have k02 : strIncludes ['f', 'e', 't', 'c', 'h'] (toLowerStr e.message) = false := by
    simpa using hall _ (by decide)
  have k03 : strIncludes ['c', 'o', 'n', 'n', 'e', 'c', 't', 'i', 'o', 'n'] (toLowerStr e.message) = false := by
    simpa using hall _ (by decide)
  have k04 : strIncludes ['o', 'f', 'f', 'l', 'i', 'n', 'e'] (toLowerStr e.message) = false := by
    simpa using hall _ (by decide)
  have k05 : strIncludes ['r', 'a', 't', 'e', ' ', 'l', 'i', 'm', 'i', 't'] (toLowerStr e.message) = false := by
    simpa using hall _ (by decide)
  have k06 : strIncludes ['t', 'o', 'o', ' ', 'm', 'a', 'n', 'y', ' ', 'r', 'e', 'q', 'u', 'e', 's', 't', 's'] (toLowerStr e.message) = false := by
    simpa using hall _ (by decide)
  have k07 : strIncludes ['q', 'u', 'o', 't', 'a'] (toLowerStr e.message) = false := by
    simpa using hall _ (by decide)
  have k08 : strIncludes ['g', 'm', 'a', 'i', 'l', '_', 'a', 'p', 'i'] (toLowerStr e.message) = false := by
    simpa using hall _ (by decide)
  have k09 : strIncludes ['i', 'n', 's', 'u', 'f', 'f', 'i', 'c', 'i', 'e', 'n', 't', ' ', 'a', 'u', 't', 'h', 'e', 'n', 't', 'i', 'c', 'a', 't', 'i', 'o', 'n', ' ', 's', 'c', 'o', 'p', 'e', 's'] (toLowerStr e.message) = false := by
    simpa using hall _ (by decide)
  have k10 : strIncludes ['s', 'e', 'r', 'v', 'i', 'c', 'e', ' ', 'u', 'n', 'a', 'v', 'a', 'i', 'l', 'a', 'b', 'l', 'e'] (toLowerStr e.message) = false := by
    simpa using hall _ (by decide)
  have k11 : strIncludes ['s', 'e', 'r', 'v', 'e', 'r', ' ', 'e', 'r', 'r', 'o', 'r'] (toLowerStr e.message) = false := by
    simpa using hall _ (by decide)
  have k12 : strIncludes ['m', 'a', 'i', 'n', 't', 'e', 'n', 'a', 'n', 'c', 'e'] (toLowerStr e.message) = false := by
    simpa using hall _ (by decide)
  have k13 : strIncludes ['t', 'e', 'm', 'p', 'o', 'r', 'a', 'r', 'i', 'l', 'y', ' ', 'u', 'n', 'a', 'v', 'a', 'i', 'l', 'a', 'b', 'l', 'e'] (toLowerStr e.message) = false := by
    simpa using hall _ (by decide)
  have k14 : strIncludes ['u', 'n', 'a', 'u', 't', 'h', 'o', 'r', 'i', 'z', 'e', 'd'] (toLowerStr e.message) = false := by
    simpa using hall _ (by decide)
  have k15 : strIncludes ['f', 'o', 'r', 'b', 'i', 'd', 'd', 'e', 'n'] (toLowerStr e.message) = false := by
    simpa using hall _ (by decide)
  have k16 : strIncludes ['i', 'n', 'v', 'a', 'l', 'i', 'd', ' ', 'k', 'e', 'y'] (toLowerStr e.message) = false := by
    simpa using hall _ (by decide)
  have k17 : strIncludes ['i', 'n', 'v', 'a', 'l', 'i', 'd', ' ', 's', 'e', 'r', 'v', 'i', 'c', 'e'] (toLowerStr e.message) = false := by
    simpa using hall _ (by decide)
  have k18 : strIncludes ['t', 'e', 'm', 'p', 'l', 'a', 't', 'e', ' ', 'n', 'o', 't', ' ', 'f', 'o', 'u', 'n', 'd'] (toLowerStr e.message) = false := by
    simpa using hall _ (by decide)
  have k19 : strIncludes ['s', 'e', 'r', 'v', 'i', 'c', 'e', ' ', 'n', 'o', 't', ' ', 'f', 'o', 'u', 'n', 'd'] (toLowerStr e.message) = false := by
    simpa using hall _ (by decide)
  have k20 : strIncludes ['v', 'a', 'l', 'i', 'd', 'a', 't', 'i', 'o', 'n'] (toLowerStr e.message) = false := by
    simpa using hall _ (by decide)
  have k21 : strIncludes ['i', 'n', 'v', 'a', 'l', 'i', 'd'] (toLowerStr e.message) = false := by
    simpa using hall _ (by decide)
  have k22 : strIncludes ['r', 'e', 'q', 'u', 'i', 'r', 'e', 'd'] (toLowerStr e.message) = false := by
    simpa using hall _ (by decide)
  have k23 : strIncludes ['b', 'a', 'd', ' ', 'r', 'e', 'q', 'u', 'e', 's', 't'] (toLowerStr e.message) = false := by
    simpa using hall _ (by decide)
  refine ⟨fun b x => categorize_total b x, ?_, ?_, ?_, ?_, ?_, ?_⟩
  · intro hst
    simp [categorizeAndEnhanceError, statusVal, statusEq, statusInRange,
      hst, hon, k01, k02, k03, k04, k05, k06, k07, k08, k09, k10, k11, k12, k13, k14, k15, k16, k17, k18, k19, k20, k21, k22, k23]
  · intro hst
    simp [categorizeAndEnhanceError, statusVal, statusEq, statusInRange,
      hst, hon, k01, k02, k03, k04, k05, k06, k07, k08, k09, k10, k11, k12, k13, k14, k15, k16, k17, k18, k19, k20, k21, k22, k23]
  · intro hst
    simp [categorizeAndEnhanceError, statusVal, statusEq, statusInRange,
      hst, hon, k01, k02, k03, k04, k05, k06, k07, k08, k09, k10, k11, k12, k13, k14, k15, k16, k17, k18, k19, k20, k21, k22, k23]
  · intro hst
    rcases hst with hst | hst | hst <;>
      simp [categorizeAndEnhanceError, statusVal, statusEq, statusInRange,
        hst, hon, k01, k02, k03, k04, k05, k06, k07, k08, k09, k10, k11, k12, k13, k14, k15, k16, k17, k18, k19, k20, k21, k22, k23]
  · intro hst
    rcases hst with hst | hst <;>
      simp [categorizeAndEnhanceError, statusVal, statusEq, statusInRange,
        getConfigurationErrorCode, hst, hon, k01, k02, k03, k04, k05, k06, k07, k08, k09, k10, k11, k12, k13, k14, k15, k16, k17, k18, k19, k20, k21, k22, k23]
  · intro hst
    simp [categorizeAndEnhanceError, statusVal, statusEq, statusInRange,
      hst, hon, k01, k02, k03, k04, k05, k06, k07, k08, k09, k10, k11, k12, k13, k14, k15, k16, k17, k18, k19, k20, k21, k22, k23]

/-- C7 counterexample to the claim as stated: a 412 error whose message
contains no network-related keyword ("network", "fetch", "connection",
"offline"), seen by an online client, is nevertheless classified as
SERVICE / RATE_LIMITED — not CONFIGURATION / GMAIL_API_AUTH_ERROR —
because the rate-limiting branch also scans the message for "quota". -/
theorem status_mapping_claim_C7_counterexample :
    (strIncludes ("network".toList)
        (toLowerStr ("quota exceeded".toList)) = false ∧
     strIncludes ("fetch".toList)
        (toLowerStr ("quota exceeded".toList)) = false ∧
     strIncludes ("connection".toList)
        (toLowerStr ("quota exceeded".toList)) = false ∧
     strIncludes ("offline".toList)
        (toLowerStr ("quota exceeded".toList)) = false) ∧
    categorizeAndEnhanceError true
      { message := "quota exceeded".toList, name := [], status := 412
        code := none, category := none } =
      (ErrorCategory.service, "RATE_LIMITED".toList) := by
  decide

theorem status_mapping_claim_C7_witness :
    categorizeAndEnhanceError true
      { message := [], name := [], status := 429, code := none
        category := none } =
      (ErrorCategory.service, "RATE_LIMITED".toList) :=
  (status_mapping_claim_C7 true
    { message := [], name := [], status := 429, code := none
      category := none } (by decide) rfl).2.1 rfl

/-- C10: for every input, `sanitizeInput` returns a string containing no
angle bracket, with no leading or trailing whitespace (stated via the
non-whitespace defaults of `headD`/`getLastD`) and no two consecutive
whitespace characters; missing/non-string (`none`) and empty inputs give
the empty string. -/
theorem sanitize_output_clean_claim_C10 (x : Option Str) :
    (∀ c ∈ sanitizeInput x, ¬(c = '<' ∨ c = '>')) ∧
    isWsCh ((sanitizeInput x).headD 'a') = false ∧
    isWsCh ((sanitizeInput x).getLastD 'a') = false ∧
    noDoubleWs (sanitizeInput x) = true ∧
    sanitizeInput none = [] ∧ sanitizeInput (some []) = [] := by
  refine ⟨?_, ?_, ?_, ?_, rfl, rfl⟩
  · intro c hc
    cases x with
    | none => cases hc
    | some s =>
      by_cases he : s.isEmpty
      · simp [sanitizeInput, he] at hc
      · have hs : sanitizeInput (some s) = sanitizeCore s := by
          simp [sanitizeInput, he]
        rw [hs] at hc
        exact sanitizeCore_no_angle hc
  · cases x with
    | none => decide
    | some s =>
      by_cases he : s.isEmpty
      · have hs : sanitizeInput (some s) = [] := by simp [sanitizeInput, he]
        rw [hs]
        decide
      · have hs : sanitizeInput (some s) = sanitizeCore s := by
          simp [sanitizeInput, he]
        rw [hs]
        exact sanitizeCore_headD s
  · cases x with
    | none => decide
    | some s =>
      by_cases he : s.isEmpty
      · have hs : sanitizeInput (some s) = [] := by simp [sanitizeInput, he]
        rw [hs]
        decide
      · have hs : sanitizeInput (some s) = sanitizeCore s := by
          simp [sanitizeInput, he]
        rw [hs]
        exact sanitizeCore_getLastD s
  · cases x with
    | none => decide
    | some s =>
      by_cases he : s.isEmpty
      · have hs : sanitizeInput (some s) = [] := by simp [sanitizeInput, he]
        rw [hs]
        decide
      · have hs : sanitizeInput (some s) = sanitizeCore s := by
          simp [sanitizeInput, he]
        rw [hs]
        exact sanitizeCore_noDoubleWs s

theorem sanitize_output_clean_claim_C10_witness :
    ¬('o' = '<' ∨ 'o' = '>') :=
  (sanitize_output_clean_claim_C10 (some ("ok".toList))).1 'o' (by decide)

theorem contact_form_validation_claim_C6_witness :
    (validateContactForm
      { user_name := none, user_email := none, message := none }
    ).errors.length = 3 := by
  have h := (contact_form_validation_claim_C6
    { user_name := none, user_email := none, message := none }).2.2.1
  rw [h]
  decide

theorem send_email_total_claim_C9_witness :
    (sendEmail (Except.ok ())
      { user_name := none, user_email := none, message := none }
      (fun _ => Except.ok ())).message ≠ [] :=
  (send_email_total_claim_C9 (Except.ok ())
    { user_name := none, user_email := none, message := none }
    (fun _ => Except.ok ())).2.1
